import Mathlib

/-!
Verification of the sentencias analysis engine.

Shallow embedding of the core analysis code of the repository:
* `src/backend/analisis.py` — phrase extraction and rule-based keyword scorer
  (`_analizar_frases_clave`, `_prediccion_basada_reglas`);
* `src/backend/analisis_discrepancias.py` — medical/legal discrepancy detector;
* `src/src/backend/analisis_predictivo.py` — corpus-level weighted prediction and
  risk analysis (`predecir_resultados`, `analizar_riesgo_legal`);
* `src/src/app-deploy.py` — separator-flexible phrase counter
  (`_contar_frases_clave`) and catalog update endpoints.

Python floats are modelled as rationals (all constants in the source are short
decimals); Python strings as `List Char`/`String`; dictionaries as association
lists in insertion order.  Cosmetic output fields (description strings,
recommendation texts, context windows) that no claim constrains are omitted
from the embedded records.
-/

set_option maxRecDepth 100000

namespace Sentencias

/-! ## String utilities

`lowerChar` models Python `str.lower` on the alphabet actually used by the
source and its inputs: ASCII letters plus the Spanish accented vowels and ñ/ü.
-/

def lowerChar (c : Char) : Char :=
  if 'A' ≤ c ∧ c ≤ 'Z' then Char.ofNat (c.toNat + 32)
  else if c = 'Á' then 'á'
  else if c = 'É' then 'é'
  else if c = 'Í' then 'í'
  else if c = 'Ó' then 'ó'
  else if c = 'Ú' then 'ú'
  else if c = 'Ñ' then 'ñ'
  else if c = 'Ü' then 'ü'
  else c

def lower (s : List Char) : List Char := s.map lowerChar

/-- `hasPref needle hay` : does `hay` start with `needle`? -/
def hasPref : List Char → List Char → Bool
  | [], _ => true
  | _ :: _, [] => false
  | a :: as, b :: bs => a == b && hasPref as bs

/-- Python `needle in hay` (substring containment). -/
def containsSub (needle : List Char) : List Char → Bool
  | [] => hasPref needle []
  | c :: rest => hasPref needle (c :: rest) || containsSub needle rest

/-- `palabra in texto.lower()` for a (lowercase) literal from the source. -/
def inLower (palabra : String) (texto : String) : Bool :=
  containsSub palabra.data (lower texto.data)

/-! Python `max`/`min`/`abs` on numbers, written with explicit `if` so that
they evaluate by kernel reduction on concrete rationals. -/

def qmax (a b : ℚ) : ℚ := if a ≤ b then b else a

def qmin (a b : ℚ) : ℚ := if a ≤ b then a else b

def qabs (a : ℚ) : ℚ := if a < 0 then -a else a

/-! ## Keyword scorer — `AnalizadorLegal._prediccion_basada_reglas`
(src/backend/analisis.py, lines 321–508).

The six factor scores are computed from the lowered text; the total score is
their weighted sum, clamped to [-1, 1].  Confidence is |score| floored at 0.3.
(The JSON layer applies `round(·, 3)`, which fixes every value proved about
below — 0.3 and 1 are three-decimal numbers — and is not modelled.)
-/

def palabrasFavorables : List String :=
  ["procedente", "estimamos", "accedemos", "concedemos", "reconocemos",
   "favorable", "justificado", "acreditado", "confirmado", "establecido",
   "fundada", "procede", "accede", "concede", "reconoce", "estimamos",
   "accedemos", "concedemos", "reconocemos", "estimamos", "accedemos"]

def palabrasDesfavorables : List String :=
  ["desestimamos", "infundada", "rechazamos", "denegamos", "no procedente",
   "desfavorable", "no acreditado", "insuficiente", "negligencia", "culpabilidad",
   "infundada", "desestima", "rechaza", "denega", "desestimamos"]

/-- `favorables = sum(1 for palabra in palabras_favorables if palabra in texto_lower)`. -/
def favorablesCount (tl : List Char) : Nat :=
  (palabrasFavorables.filter (fun p => containsSub p.data tl)).length

def desfavorablesCount (tl : List Char) : Nat :=
  (palabrasDesfavorables.filter (fun p => containsSub p.data tl)).length

/-- Factor 2: document structure score. -/
def estructuraScore (tl : List Char) : ℚ :=
  (if containsSub "argumentos".data tl || containsSub "fundamentos".data tl then (3/10 : ℚ) else 0)
  + (if containsSub "conclusiones".data tl || containsSub "resolucion".data tl then (3/10 : ℚ) else 0)
  + (if containsSub "hechos".data tl || containsSub "antecedentes".data tl then (1/5 : ℚ) else 0)
  + (if containsSub "solicitud".data tl || containsSub "petitum".data tl then (1/5 : ℚ) else 0)

/-- Factor 3: medical evidence score. -/
def evidenciaScore (tl : List Char) : ℚ :=
  (if containsSub "informe médico".data tl || containsSub "dictamen pericial".data tl then (2/5 : ℚ) else 0)
  + (if containsSub "lesiones".data tl &&
        (containsSub "grave".data tl || containsSub "permanente".data tl) then (3/10 : ℚ) else 0)
  + (if containsSub "accidente laboral".data tl then (1/5 : ℚ) else 0)
  + (if containsSub "secuelas".data tl then (1/10 : ℚ) else 0)

/-- Factor 4: legal procedure score.  The `plazo`/`dentro` branch adds
`0.2` and then `0.1` more (both statements are inside that branch in the
source), hence `3/10`, and the factor can reach `1.1`. -/
def procedimientoScore (tl : List Char) : ℚ :=
  (if containsSub "reclamación administrativa previa".data tl then (2/5 : ℚ) else 0)
  + (if containsSub "trámite".data tl && containsSub "cumplido".data tl then (3/10 : ℚ) else 0)
  + (if containsSub "plazo".data tl && containsSub "dentro".data tl then (3/10 : ℚ) else 0)
  + (if containsSub "notificación".data tl then (1/10 : ℚ) else 0)

/-- Factor 5: temporal/occupational context score. -/
def contextoScore (tl : List Char) : ℚ :=
  (if containsSub "durante".data tl && containsSub "jornada".data tl then (3/10 : ℚ) else 0)
  + (if containsSub "lugar de trabajo".data tl then (3/10 : ℚ) else 0)
  + (if containsSub "medidas de seguridad".data tl then (1/5 : ℚ) else 0)
  + (if containsSub "empresa".data tl && containsSub "responsabilidad".data tl then (1/5 : ℚ) else 0)

def terminosJuridicos : List String :=
  ["actor", "demandado", "procedimiento", "instancia", "resolución",
   "recurso", "fundamento", "considerando"]

/-- Factor 6: legal terminology score (`0.125` per detected term). -/
def terminologiaScore (tl : List Char) : ℚ :=
  ((terminosJuridicos.filter (fun t => containsSub t.data tl)).length : ℚ) * (1/8)

/-- The weighted sum of the six factors, as a function of the extracted
signals.  The keyword factor contributes only when `favorables +
desfavorables > 0`, exactly as in the source. -/
def puntuacionFromSignals (fav desf : Nat) (estr evid proc ctx term : ℚ) : ℚ :=
  (if 0 < fav + desf then ((fav : ℚ) - (desf : ℚ)) / ((fav : ℚ) + (desf : ℚ)) * (1/4) else 0)
  + estr * (1/5) + evid * (1/5) + proc * (3/20) + ctx * (1/10) + term * (1/10)

def puntuacionRaw (texto : String) : ℚ :=
  let tl := lower texto.data
  puntuacionFromSignals (favorablesCount tl) (desfavorablesCount tl)
    (estructuraScore tl) (evidenciaScore tl) (procedimientoScore tl)
    (contextoScore tl) (terminologiaScore tl)

/-- `puntuacion = max(-1, min(1, puntuacion))`. -/
def puntuacionGlobal (texto : String) : ℚ :=
  qmax (-1) (qmin 1 (puntuacionRaw texto))

/-- `confianza = max(0.3, abs(puntuacion))`. -/
def confianza (texto : String) : ℚ :=
  qmax (3/10) (qabs (puntuacionGlobal texto))

/-- `es_favorable = puntuacion > 0`. -/
def esFavorable (texto : String) : Bool :=
  decide (0 < puntuacionGlobal texto)

/-! ## A small regular-expression engine

The discrepancy module (src/backend/analisis_discrepancias.py) matches a fixed
set of regular expressions.  Every starred/one-or-more subexpression in those
patterns is over a single character class (`\s+`, `\s*`, `\d+`, `.*?`), which
the `many`/`many1` constructors capture directly; the rest is literals,
concatenation, alternation and `X?`.
-/

inductive CC where
  | ch (c : Char)
  | digit
  | space
  | anyc (dotall : Bool)
deriving Repr, DecidableEq

def ccMatch : CC → Char → Bool
  | .ch c, d => d == c
  | .digit, d => '0' ≤ d && d ≤ '9'
  | .space, d => d == ' ' || d == '\t' || d == '\n' || d == '\r' || d == '\x0b' || d == '\x0c'
  | .anyc dotall, d => dotall || !(d == '\n')

inductive RE where
  | eps
  | cc (c : CC)
  | seq (a b : RE)
  | alt (a b : RE)
  | many (c : CC)
  | many1 (c : CC)
deriving Repr, DecidableEq

/-- Remainders after consuming zero or more characters of class `c`. -/
def manyRem (c : CC) : List Char → List (List Char)
  | [] => [[]]
  | d :: rest => (d :: rest) :: (if ccMatch c d then manyRem c rest else [])

/-- All remainders after matching `r` against a prefix of `s`. -/
def reRem : RE → List Char → List (List Char)
  | .eps, s => [s]
  | .cc _, [] => []
  | .cc c, d :: rest => if ccMatch c d then [rest] else []
  | .seq a b, s => (reRem a s).flatMap (fun s2 => reRem b s2)
  | .alt a b, s => reRem a s ++ reRem b s
  | .many c, s => manyRem c s
  | .many1 _, [] => []
  | .many1 c, d :: rest => if ccMatch c d then manyRem c rest else []

/-- Does `r` match some prefix of `s`? -/
def matchesFrom (r : RE) (s : List Char) : Bool :=
  !(reRem r s).isEmpty

/-- All positions of `l` at which `r` matches.  `re.finditer` reports
non-overlapping matches left to right; the two position lists agree on
emptiness, which is everything the discrepancy rules use of them. -/
def searchPositions (r : RE) (l : List Char) : List Nat :=
  (List.range (l.length + 1)).filter (fun i => matchesFrom r (l.drop i))

/-- `re.search` (presence of a match). -/
def reSearchB (r : RE) (l : List Char) : Bool :=
  !(searchPositions r l).isEmpty

def lits : List Char → RE
  | [] => .eps
  | c :: cs => .seq (.cc (.ch c)) (lits cs)

def rstr (s : String) : RE := lits s.data

def cat : List RE → RE
  | [] => .eps
  | r :: rs => .seq r (cat rs)

def opt (r : RE) : RE := .alt r .eps

/-- `\s+` -/
def sp1 : RE := .many1 .space

/-- `\s*` -/
def spStar : RE := .many .space

/-- `\d+` -/
def dig1 : RE := .many1 .digit

/-- `\d{n}` -/
def digN (n : Nat) : RE := cat (List.replicate n (.cc .digit))

/-- `.*?` (with/without `re.DOTALL`) -/
def dotLazy (dotall : Bool) : RE := .many (.anyc dotall)

/-- a trailing `s?` -/
def optS : RE := opt (.cc (.ch 's'))

/-- `[°º]` -/
def grados : RE := .alt (.cc (.ch '°')) (.cc (.ch 'º'))

/-! ## Discrepancy detector — `AnalizadorDiscrepancias`
(src/backend/analisis_discrepancias.py).

`_buscar_patrones` runs each pattern over `texto.lower()` with no flags, so
patterns containing uppercase (e.g. `LPNI`, `IPP`, `RMN`, `LGSS`) can never
match; they are embedded verbatim nonetheless.  The internal-contradiction
patterns are compiled with `re.IGNORECASE | re.DOTALL`; case-insensitivity is
modelled by also matching them against the lowered text (the patterns
themselves are lowercase).
-/

/-- `patrones_discrepancias["lesiones_graves"]`. -/
def patronesLesionesGraves : List RE :=
  [cat [rstr "rotura", sp1, opt (cat [rstr "de", sp1]), rstr "espesor", sp1, rstr "completo"],
   cat [rstr "retracción", sp1, rstr "fibrilar", sp1, dig1, spStar, rstr "mm"],
   cat [rstr "tenopatía", sp1, rstr "severa"],
   cat [rstr "artropatía", sp1, rstr "acromioclavicular", sp1, rstr "severa"],
   cat [rstr "lesión", sp1, rstr "estructural", sp1, rstr "grave"],
   cat [rstr "rotura", sp1, rstr "completa", sp1, rstr "del", sp1, rstr "manguito", sp1, rstr "rotador"],
   cat [rstr "anclaje", optS, sp1, .alt (rstr "corkscrew") (cat [rstr "tornillo", optS])],
   cat [rstr "cirugía", sp1, rstr "reconstructiva"]]

/-- `patrones_discrepancias["limitaciones_funcionales"]`. -/
def patronesLimitacionesFuncionales : List RE :=
  [cat [rstr "flexión", sp1, rstr "activa", sp1, rstr "solo", sp1, dig1, grados],
   cat [rstr "abducción", sp1, rstr "activa", sp1, dig1, grados],
   cat [rstr "fuerza", sp1, rstr "insuficiente", sp1, rstr "para", sp1, rstr "vencer",
        sp1, rstr "la", sp1, rstr "gravedad"],
   cat [rstr "balance", sp1, rstr "muscular", sp1, dig1, rstr "/", dig1],
   cat [rstr "fuerza", sp1, rstr "de", sp1, rstr "garra", sp1, rstr "solo", sp1, dig1, spStar, rstr "kg"],
   cat [rstr "limitación", sp1, rstr "activa", sp1, rstr "a", sp1, dig1, grados],
   cat [rstr "discinesia", sp1, rstr "escapular"],
   cat [rstr "atrofia", sp1, rstr "periescapular"],
   cat [rstr "prácticamente", sp1, rstr "nulo", sp1, rstr "desarrollo", sp1, rstr "de", sp1, rstr "fuerza"]]

/-- `patrones_discrepancias["contradicciones_internas"]` (DOTALL). -/
def patronesContradiccionesInternas : List RE :=
  [cat [rstr "no", sp1, rstr "presenta", sp1, rstr "limitación", sp1, rstr "importante",
        dotLazy true, rstr "limitación", sp1, rstr "activa"],
   cat [rstr "no", sp1, rstr "impide", sp1, rstr "actividades", dotLazy true,
        rstr "limitación", sp1, rstr "activa"],
   cat [rstr "alta", sp1, rstr "médica", dotLazy true, rstr "limitacione", optS, sp1, rstr "persistentes"],
   cat [rstr "recuperación", dotLazy true, rstr "secuela", optS, sp1, rstr "permanentes"],
   cat [rstr "movilidad", sp1, rstr "pasiva", dotLazy true, rstr "activa", sp1, rstr "sigue", sp1, rstr "limitada"]]

/-- `patrones_discrepancias["terminologia_lpni"]`. -/
def patronesTerminologiaLpni : List RE :=
  [cat [rstr "lesione", optS, sp1, rstr "permanente", optS, sp1, rstr "no", sp1, rstr "incapacitante", optS],
   rstr "LPNI",
   cat [rstr "secuela", optS, sp1, rstr "no", sp1, rstr "invalidante", optS],
   cat [rstr "molestia", optS, sp1, rstr "leve", optS],
   cat [rstr "lesione", optS, sp1, rstr "menore", optS]]

/-- `patrones_discrepancias["terminologia_ipp"]`. -/
def patronesTerminologiaIpp : List RE :=
  [cat [rstr "incapacidad", sp1, rstr "permanente", sp1, rstr "parcial"],
   rstr "IPP",
   cat [rstr "disminución", sp1, opt (cat [rstr "del", sp1]), rstr "rendimiento", dotLazy false, rstr "33%"],
   cat [rstr "art.", spStar, rstr "194.2", sp1, rstr "LGSS"],
   cat [rstr "limitación", sp1, rstr "funcional", sp1, rstr "permanente"],
   cat [rstr "merma", sp1, rstr "funcional", dotLazy false, rstr "33%"]]

/-- `\d{2}\.\d{2}\.\d{4}` -/
def fecha : RE := cat [digN 2, rstr ".", digN 2, rstr ".", digN 4]

/-- `patrones_discrepancias["evidencia_objetiva"]`. -/
def patronesEvidenciaObjetiva : List RE :=
  [cat [rstr "RMN", dotLazy false, fecha],
   cat [rstr "informe", sp1, rstr "de", sp1, rstr "biomecánica"],
   cat [rstr "fuerza", dotLazy false, rstr "normal", dotLazy false, rstr ">", dig1, spStar, rstr "kg"],
   cat [rstr "duración", sp1, rstr "del", sp1, rstr "proceso", dotLazy false, dig1, spStar, rstr "mese", optS],
   cat [rstr "múltiples", sp1, rstr "recaída", optS],
   cat [rstr "cirugía", dotLazy false, fecha]]

/-- `_buscar_patrones(texto, patrones)`: match positions in `texto.lower()`. -/
def buscarPatrones (patrones : List RE) (texto : String) : List Nat :=
  patrones.flatMap (fun p => searchPositions p (lower texto.data))

/-- `alta\s+médica.*?(?:no\s+presenta\s+limitación|no\s+impide)` -/
def altaMedicaRE : RE :=
  cat [rstr "alta", sp1, rstr "médica", dotLazy false,
       .alt (cat [rstr "no", sp1, rstr "presenta", sp1, rstr "limitación"])
            (cat [rstr "no", sp1, rstr "impide"])]

/-- `(?:molestias?|dolor\s+leve|síntomas?\s+menores?)` -/
def conclusionSubjetivaRE : RE :=
  .alt (cat [rstr "molestia", optS])
       (.alt (cat [rstr "dolor", sp1, rstr "leve"])
             (cat [rstr "síntoma", optS, sp1, rstr "menore", optS]))

def natOfDigits (ds : List Char) : Nat :=
  ds.foldl (fun n c => n * 10 + (c.toNat - '0'.toNat)) 0

/-- One attempt of `(?:durante\s+)?(\d+)\s*(?:meses?|años?)` at the start of
`s`, returning the captured number.  Maximal munch for `\s+`/`\d+`/`\s*` is
faithful here because the following unit starts with a letter. -/
def tryDurAt (s : List Char) : Option Nat :=
  let s1 :=
    if hasPref "durante".data s then
      let r := s.drop 7
      let sp := r.takeWhile (ccMatch .space)
      if sp.isEmpty then s else r.drop sp.length
    else s
  let ds := s1.takeWhile (ccMatch .digit)
  if ds.isEmpty then none
  else
    let r := (s1.drop ds.length).dropWhile (ccMatch .space)
    if hasPref "mese".data r || hasPref "año".data r then some (natOfDigits ds) else none

/-- `re.search(r"(?:durante\s+)?(\d+)\s*(?:meses?|años?)", texto_lower)`:
the captured number of the leftmost match. -/
def durPrimero (texto : String) : Option Nat :=
  let tl := lower texto.data
  ((List.range (tl.length + 1)).filterMap (fun i => tryDurAt (tl.drop i))).head?

/-- A detected discrepancy; only the fields the claims constrain are
modelled (description/argument strings and evidence payloads are not). -/
structure Discrepancia where
  tipo : String
  severidad : String
deriving Repr, DecidableEq

/-- An item of favorable evidence; `relevancia` holds the value of the
source's `relevancia` key (or `fuerza`, for the sentencia branch). -/
structure Evidencia where
  tipo : String
  relevancia : String
deriving Repr, DecidableEq

structure Contradiccion where
  tipo : String
  severidad : String
deriving Repr, DecidableEq

/-- `_detectar_tipo_documento`: sentencia indicator list. -/
def indicadoresSentencia : List String :=
  ["tribunal supremo", "sts", "sentencia", "magistrado", "magistrada",
   "fallamos", "estimamos", "desestimamos", "resuelvo", "resolvemos",
   "parte dispositiva", "fundamentos de derecho", "antecedentes de hecho"]

def indicadoresInforme : List String :=
  ["informe médico", "diagnóstico", "tratamiento", "evolución", "pronóstico",
   "exploración física", "pruebas complementarias", "alta médica", "baja médica",
   "limitaciones funcionales", "capacidad laboral"]

def contadorSentencia (texto : String) : Nat :=
  (indicadoresSentencia.filter (fun s => inLower s texto)).length

def contadorInforme (texto : String) : Nat :=
  (indicadoresInforme.filter (fun s => inLower s texto)).length

def detectarTipoDocumento (texto : String) : String :=
  if contadorSentencia texto > contadorInforme texto ∧ 3 ≤ contadorSentencia texto then "sentencia"
  else if contadorInforme texto > contadorSentencia texto ∧ 3 ≤ contadorInforme texto then "informe_medico"
  else "documento_generico"

/-- `_detectar_discrepancias_especificas`. -/
def detectarDiscrepanciasEspecificas (texto : String) : List Discrepancia :=
  let lesionesGraves := buscarPatrones patronesLesionesGraves texto
  let terminologiaLpni := buscarPatrones patronesTerminologiaLpni texto
  let d1 : List Discrepancia :=
    if !lesionesGraves.isEmpty && !terminologiaLpni.isEmpty then
      [⟨"lesiones_graves_vs_lpni", "alta"⟩] else []
  let limitaciones := buscarPatrones patronesLimitacionesFuncionales texto
  let altaMedica := reSearchB altaMedicaRE (lower texto.data)
  let d2 : List Discrepancia :=
    if !limitaciones.isEmpty && altaMedica then [⟨"limitaciones_vs_alta", "alta"⟩] else []
  let evidenciaObj := buscarPatrones patronesEvidenciaObjetiva texto
  let conclusionSubjetiva := reSearchB conclusionSubjetivaRE (lower texto.data)
  let d3 : List Discrepancia :=
    if !evidenciaObj.isEmpty && conclusionSubjetiva then [⟨"evidencia_vs_conclusion", "media"⟩] else []
  d1 ++ d2 ++ d3

/-- `_analizar_evidencia_favorable`. -/
def analizarEvidenciaFavorable (texto : String) : List Evidencia :=
  let lesionesGraves := buscarPatrones patronesLesionesGraves texto
  let limitaciones := buscarPatrones patronesLimitacionesFuncionales texto
  let e1 := lesionesGraves.map (fun _ => (⟨"lesion_estructural_grave", "alta"⟩ : Evidencia))
  let e2 := limitaciones.map (fun _ => (⟨"limitacion_funcional_objetiva", "alta"⟩ : Evidencia))
  let e3 : List Evidencia :=
    match durPrimero texto with
    | some meses => if 12 ≤ meses then [⟨"duracion_prolongada", "media"⟩] else []
    | none => []
  e1 ++ e2 ++ e3

/-- `_detectar_contradicciones_internas`. -/
def detectarContradiccionesInternas (texto : String) : List Contradiccion :=
  (patronesContradiccionesInternas.flatMap
      (fun p => searchPositions p (lower texto.data))).map
    (fun _ => ⟨"contradiccion_interna", "alta"⟩)

/-- `_detectar_discrepancias_sentencia`. -/
def detectarDiscrepanciasSentencia (texto : String) : List Discrepancia :=
  let d1 : List Discrepancia :=
    if inLower "informe" texto && (inLower "médico" texto || inLower "médica" texto) then
      [⟨"sentencia_referencia_informe", "media"⟩] else []
  let d2 : List Discrepancia :=
    if inLower "incapacidad permanente parcial" texto || inLower "ipp" texto then
      [⟨"conclusion_ipp", "alta"⟩] else []
  d1 ++ d2

/-- `_analizar_evidencia_sentencia` (note: `"194" in texto` checks the raw,
un-lowered text in the source). -/
def analizarEvidenciaSentencia (texto : String) : List Evidencia :=
  let e1 : List Evidencia :=
    if inLower "artículo" texto && (containsSub "194".data texto.data || inLower "lgss" texto) then
      [⟨"fundamento_legal", "alta"⟩] else []
  let e2 : List Evidencia :=
    if inLower "supraespinoso" texto || inLower "hombro" texto then
      [⟨"lesion_especifica", "alta"⟩] else []
  e1 ++ e2

/-- `_detectar_contradicciones_sentencia`. -/
def detectarContradiccionesSentencia (texto : String) : List Contradiccion :=
  if inLower "estimamos" texto && inLower "desestimamos" texto then
    [⟨"contradiccion_estimacion", "alta"⟩] else []

/-- The result of `analizar_discrepancias`, restricted to the document type
and the three lists the claims are about. -/
structure ResultadoDiscrepancias where
  tipoDocumento : String
  discrepanciasDetectadas : List Discrepancia
  evidenciaFavorable : List Evidencia
  contradiccionesInternas : List Contradiccion
deriving Repr, DecidableEq

/-- `analizar_discrepancias`.  The `informe_medico` and `documento_generico`
branches call the same three detection functions for the modelled fields, so
they are collapsed into the else-branch. -/
def analizarDiscrepancias (texto : String) : ResultadoDiscrepancias :=
  let tipo := detectarTipoDocumento texto
  if tipo = "sentencia" then
    ⟨tipo, detectarDiscrepanciasSentencia texto, analizarEvidenciaSentencia texto,
     detectarContradiccionesSentencia texto⟩
  else
    ⟨tipo, detectarDiscrepanciasEspecificas texto, analizarEvidenciaFavorable texto,
     detectarContradiccionesInternas texto⟩

/-! ## Phrase extractors

`AnalizadorLegal._analizar_frases_clave` (src/backend/analisis.py, 270–319)
matches `re.escape(variante)` with `re.IGNORECASE` — an exact literal,
case-insensitively.  `AnalizadorLegalBasico._contar_frases_clave`
(src/src/app-deploy.py, 520–571) first rewrites the escaped variant, turning
each space into `\s+` and each hyphen into `[\s_\-_]+` (escaped underscores do
not occur, since `re.escape` leaves `_` alone).  Both are parametric in the
category→variants catalog (`self.frases_clave`), which is loaded from
`models/frases_clave.json` and falls back to the default below
(src/backend/analisis.py, 43–87).
-/

def frasesDefault : List (String × List String) :=
  [("incapacidad_permanente_parcial",
    ["incapacidad permanente parcial", "IPP", "permanente parcial",
     "incapacidad parcial permanente", "secuela permanente",
     "incapacidad permanente", "secuelas permanentes"]),
   ("reclamacion_administrativa",
    ["reclamación administrativa previa", "RAP", "reclamación previa",
     "vía administrativa", "recurso administrativo", "reclamación"]),
   ("inss",
    ["INSS", "Instituto Nacional de la Seguridad Social", "Seguridad Social",
     "Instituto Nacional", "Seguridad Social"]),
   ("lesiones_permanentes",
    ["lesiones permanentes no incapacitantes", "LPNI", "secuelas",
     "lesiones permanentes", "secuelas permanentes", "lesiones"]),
   ("personal_limpieza",
    ["limpiadora", "personal de limpieza", "servicios de limpieza",
     "trabajador de limpieza", "empleada de limpieza", "limpieza"]),
   ("lesiones_hombro",
    ["rotura del manguito rotador", "supraespinoso", "hombro derecho",
     "lesión de hombro", "manguito rotador", "tendón supraespinoso",
     "hombro", "manguito"]),
   ("procedimiento_legal",
    ["procedente", "desestimamos", "estimamos", "fundada",
     "infundada", "accedemos", "concedemos", "reconocemos"])]

structure Ocurrencia where
  frase : String
  posicion : Nat
  linea : Nat
deriving Repr, DecidableEq

/-- Case-insensitive literal match of `pat` at position `i` of `txt`. -/
def matchAtCI (pat txt : List Char) (i : Nat) : Bool :=
  hasPref (lower pat) (lower (txt.drop i))

/-- Match positions of `finditer` for an escaped literal: scan left to right,
jumping over each match (matches of `re.escape(v)` always have length
`v.length`; the `max 1` only guards the degenerate empty variant, which the
catalogs do not contain). -/
def scanAuxF (pat txt : List Char) : Nat → Nat → List Nat
  | 0, _ => []
  | fuel + 1, i =>
    if i < txt.length then
      if matchAtCI pat txt i then
        i :: scanAuxF pat txt fuel (i + max 1 pat.length)
      else scanAuxF pat txt fuel (i + 1)
    else []

def scanAux (pat txt : List Char) (i : Nat) : List Nat :=
  scanAuxF pat txt (txt.length - i) i

/-- `linea = texto[:start_pos].count('\n') + 1`. -/
def lineaDe (txt : List Char) (p : Nat) : Nat :=
  ((txt.take p).filter (fun c => c == '\n')).length + 1

def ocurrenciasDeVariante (variante : String) (txt : List Char) : List Ocurrencia :=
  (scanAux variante.data txt 0).map (fun p => ⟨variante, p, lineaDe txt p⟩)

/-- `_analizar_frases_clave`: categories with at least one match, with total
count and occurrences (context strings are not modelled). -/
def analizarFrasesClave (frasesClave : List (String × List String)) (texto : String) :
    List (String × Nat × List Ocurrencia) :=
  if texto.data.isEmpty then []
  else
    frasesClave.filterMap (fun cv =>
      let ocs := cv.2.flatMap (fun v => ocurrenciasDeVariante v texto.data)
      if 0 < ocs.length then some (cv.1, ocs.length, ocs) else none)

structure OcurrenciaF where
  frase : String
  posicion : Nat
  longitud : Nat
  linea : Nat
deriving Repr, DecidableEq

def isSepClass (c : Char) : Bool := ccMatch .space c || c == '_' || c == '-'

/-- Length consumed by the separator-flexible pattern of a variant (spaces →
`\s+`, hyphens → `[\s_\-_]+`, other characters case-insensitive literals).
Separator runs are consumed maximally, which agrees with the regex because
catalog words start with non-separator characters. -/
def flexLen : List Char → List Char → Option Nat
  | [], _ => some 0
  | c :: prest, s =>
    if c = ' ' then
      let sp := s.takeWhile (ccMatch .space)
      if sp.isEmpty then none
      else (flexLen prest (s.drop sp.length)).map (fun n => sp.length + n)
    else if c = '-' then
      let sp := s.takeWhile isSepClass
      if sp.isEmpty then none
      else (flexLen prest (s.drop sp.length)).map (fun n => sp.length + n)
    else
      match s with
      | [] => none
      | d :: rest =>
        if lowerChar d == lowerChar c then (flexLen prest rest).map (fun n => n + 1) else none

def scanFlexAuxF (pat txt : List Char) : Nat → Nat → List (Nat × Nat)
  | 0, _ => []
  | fuel + 1, i =>
    if i < txt.length then
      match flexLen pat (txt.drop i) with
      | some len => (i, len) :: scanFlexAuxF pat txt fuel (i + max 1 len)
      | none => scanFlexAuxF pat txt fuel (i + 1)
    else []

def scanFlexAux (pat txt : List Char) (i : Nat) : List (Nat × Nat) :=
  scanFlexAuxF pat txt (txt.length - i) i

def ocurrenciasFlexDeVariante (variante : String) (txt : List Char) : List OcurrenciaF :=
  (scanFlexAux variante.data txt 0).map (fun pl => ⟨variante, pl.1, pl.2, lineaDe txt pl.1⟩)

/-- `_contar_frases_clave` (src/src/app-deploy.py). -/
def contarFrasesClave (frasesClave : List (String × List String)) (texto : String) :
    List (String × Nat × List OcurrenciaF) :=
  if texto.data.isEmpty then []
  else
    frasesClave.filterMap (fun cv =>
      let ocs := cv.2.flatMap (fun v => ocurrenciasFlexDeVariante v texto.data)
      if 0 < ocs.length then some (cv.1, ocs.length, ocs) else none)

/-! ## Corpus-level prediction and risk
(src/src/backend/analisis_predictivo.py).

`predecir_resultados` publishes `probabilidad_favorable = round(prob * 100,
1)`; the record below keeps the probability as the fraction before that
scaling/rounding.  The sibling copy in src/backend/analisis_predictivo.py has
no instance weighting and its `analizar_riesgo_legal` calls `sum()` on an
`int`, so it always returns its exception-handler error dictionary; the
src/src copy embedded here is the one whose behavior the claims describe.
-/

structure Prediccion where
  esFav : Bool
  conf : ℚ
deriving Repr, DecidableEq

structure ResultadoArchivo where
  procesado : Bool
  prediccion : Option Prediccion
deriving Repr, DecidableEq

/-- `_inferir_instancia_por_nombre`. -/
def inferirInstanciaPorNombre (nombre : String) : String :=
  if nombre.data.isEmpty then "otra"
  else
    let nl := lower nombre.data
    if containsSub "sts_".data nl || containsSub "sts-".data nl || containsSub "sts ".data nl then "ts"
    else if containsSub "tsj_".data nl || containsSub "tsj-".data nl || containsSub "tsj ".data nl then "tsj"
    else if containsSub "tribunal_supremo".data nl || containsSub "tribunal-supremo".data nl then "ts"
    else if containsSub "tribunal_superior".data nl || containsSub "tribunal-superior".data nl then "tsj"
    else "otra"

/-- `peso = 1.5 if instancia == 'ts' else 1.2 if instancia == 'tsj' else 1.0`. -/
def pesoInstancia (inst : String) : ℚ :=
  if inst = "ts" then 3/2 else if inst = "tsj" then 6/5 else 1

/-- The documents that pass `resultado.get("procesado") and
resultado.get("prediccion")`. -/
def docsProcesados (docs : List (String × ResultadoArchivo)) : List (String × Prediccion) :=
  docs.filterMap (fun ar =>
    match ar.2.prediccion with
    | some p => if ar.2.procesado then some (ar.1, p) else none
    | none => none)

structure ResultadoPrediccion where
  probFavorable : ℚ
  probDesfavorable : ℚ
  confianzaDatos : ℚ
  totalDocumentos : Nat
  advertenciaDatos : Bool
deriving Repr, DecidableEq

/-- `peso = 1.5/1.2/1.0` for a processed document, from its file name. -/
def pesoDeDoc (ap : String × Prediccion) : ℚ :=
  pesoInstancia (inferirInstanciaPorNombre ap.1)

def favorablesDe (docs : List (String × ResultadoArchivo)) : List (String × Prediccion) :=
  (docsProcesados docs).filter (fun ap => ap.2.esFav)

def desfavorablesDe (docs : List (String × ResultadoArchivo)) : List (String × Prediccion) :=
  (docsProcesados docs).filter (fun ap => !ap.2.esFav)

def pesoFavDe (docs : List (String × ResultadoArchivo)) : ℚ :=
  ((favorablesDe docs).map pesoDeDoc).sum

def pesoDesDe (docs : List (String × ResultadoArchivo)) : ℚ :=
  ((desfavorablesDe docs).map pesoDeDoc).sum

def totalDocumentosDe (docs : List (String × ResultadoArchivo)) : Nat :=
  (favorablesDe docs).length + (desfavorablesDe docs).length

/-- The `prob_favorable` if-chain of `predecir_resultados`: neutral 0.5 with
no documents; dampening `0.5 + (base - 0.5) * 0.3` below 3 documents; above,
the weighted ratio with ratios above 0.9 snapped to 0.85 and below 0.1 to
0.15 (ratios in between pass through unchanged). -/
def probFavorableDe (pesoFav pesoDes : ℚ) (totalDocumentos : Nat) : ℚ :=
  if totalDocumentos = 0 then 1/2
  else if totalDocumentos < 3 then
    (if 0 < pesoFav + pesoDes then 1/2 + (pesoFav / (pesoFav + pesoDes) - 1/2) * (3/10) else 1/2)
  else
    (if 0 < pesoFav + pesoDes then
       (if pesoFav / (pesoFav + pesoDes) > 9/10 then 17/20
        else if pesoFav / (pesoFav + pesoDes) < 1/10 then 3/20
        else pesoFav / (pesoFav + pesoDes))
     else 1/2)

/-- The `confianza_datos` values of the same if-chain. -/
def confianzaDatosDe (totalDocumentos : Nat) : ℚ :=
  if totalDocumentos = 0 then 1/10
  else if totalDocumentos < 3 then 3/10
  else qmin (4/5) ((totalDocumentos : ℚ) / 10)

/-- `predecir_resultados` (src/src/backend/analisis_predictivo.py, 176–275),
restricted to the probability outputs the claims constrain. -/
def predecirResultados (docs : List (String × ResultadoArchivo)) : ResultadoPrediccion :=
  ⟨probFavorableDe (pesoFavDe docs) (pesoDesDe docs) (totalDocumentosDe docs),
   1 - probFavorableDe (pesoFavDe docs) (pesoDesDe docs) (totalDocumentosDe docs),
   confianzaDatosDe (totalDocumentosDe docs),
   totalDocumentosDe docs,
   decide (totalDocumentosDe docs < 3)⟩

def categoriasRiesgoAlto : List String :=
  ["reclamacion_administrativa", "procedimiento_legal", "fundamentos_juridicos"]

def categoriasRiesgoMed : List String :=
  ["lesiones_permanentes", "accidente_laboral", "prestaciones"]

def categoriasRiesgoBajo : List String :=
  ["inss", "personal_limpieza", "lesiones_hombro"]

def totalDeCategoria (ranking : List (String × Nat)) (c : String) : Nat :=
  match ranking.lookup c with
  | some n => n
  | none => 0

def sumaNivel (ranking : List (String × Nat)) (cats : List String) : Nat :=
  (cats.map (totalDeCategoria ranking)).sum

/-- `factor_instancia = 1.0 + 0.5 * ratio_ts + 0.2 * ratio_tsj` over the
document file names (every modelled entry is a dict in the source's
`isinstance` filter). -/
def factorInstancia (archivos : List String) : ℚ :=
  if 0 < archivos.length then
    1 + (1/2) * (((archivos.filter
          (fun a => inferirInstanciaPorNombre a = "ts")).length : ℚ) / (archivos.length : ℚ))
      + (1/5) * (((archivos.filter
          (fun a => inferirInstanciaPorNombre a = "tsj")).length : ℚ) / (archivos.length : ℚ))
  else 1

structure RiesgoGeneral where
  valor : ℚ
  nivel : String
deriving Repr, DecidableEq

/-- `analizar_riesgo_legal` (src/src/backend/analisis_predictivo.py, 319–399):
the overall risk value and classification. -/
def riesgoValor (ranking : List (String × Nat)) (archivos : List String) : ℚ :=
  ((sumaNivel ranking categoriasRiesgoAlto * 3 + sumaNivel ranking categoriasRiesgoMed * 2 +
    sumaNivel ranking categoriasRiesgoBajo : ℕ) : ℚ) * factorInstancia archivos

def riesgoNivel (ranking : List (String × Nat)) (archivos : List String) : String :=
  if archivos.length < 3 then (if riesgoValor ranking archivos > 30 then "medio" else "bajo")
  else (if riesgoValor ranking archivos > 100 then "alto"
        else if riesgoValor ranking archivos > 50 then "medio" else "bajo")

def analizarRiesgoLegal (ranking : List (String × Nat)) (archivos : List String) :
    RiesgoGeneral :=
  ⟨riesgoValor ranking archivos, riesgoNivel ranking archivos⟩

/-- The classification claim C3 describes (written from the claim's words, to
be compared with the source's): thresholds 100/50, capped at "medio" when the
corpus has fewer than 3 documents. -/
def nivelRiesgoClaim (valor : ℚ) (totalDocumentos : Nat) : String :=
  let base := if valor > 100 then "alto" else if valor > 50 then "medio" else "bajo"
  if totalDocumentos < 3 then (if base = "alto" then "medio" else base) else base

/-! ## Catalog update operations (src/src/app-deploy.py, 737–778)

The stored catalog `datos` is an ordered mapping category name → phrase list;
`datos[nombre] = ...` on a fresh key appends at the end.
-/

/-- Python `str.strip()`. -/
def strip (s : String) : String :=
  ⟨((s.data.dropWhile (ccMatch .space)).reverse.dropWhile (ccMatch .space)).reverse⟩

/-- `crear_categoria`: HTTP 400 on empty stripped name, 409 on existing key
(exact equality, as `nombre in datos`), else append. -/
def crearCategoria (datos : List (String × List String)) (nombre : String)
    (frases : List String) : Except String (List (String × List String)) :=
  if (strip nombre).data.isEmpty then .error "Nombre de categoría requerido"
  else if (datos.map Prod.fst).contains (strip nombre) then .error "La categoría ya existe"
  else .ok (datos ++
    [(strip nombre, (frases.filter (fun s => !(strip s).data.isEmpty)).map strip)])

/-- `renombrar_categoria`: `datos[new_name] = datos.pop(old_name)` removes the
old key in place and appends the new one at the end. -/
def renombrarCategoria (datos : List (String × List String)) (oldName newName : String) :
    Except String (List (String × List String)) :=
  if (strip oldName).data.isEmpty || (strip newName).data.isEmpty then
    .error "Nombres requeridos"
  else if !(datos.map Prod.fst).contains (strip oldName) then
    .error "Categoría original no encontrada"
  else if (datos.map Prod.fst).contains (strip newName) && strip newName ≠ strip oldName then
    .error "La categoría destino ya existe"
  else if strip newName = strip oldName then .ok datos
  else
    match datos.lookup (strip oldName) with
    | some fr => .ok ((datos.filter (fun kv => kv.1 ≠ strip oldName)) ++ [(strip newName, fr)])
    | none => .error "Categoría original no encontrada"

/-- Collapse every run of separator characters (whitespace, `_`, `-`) into a
single space.  Two strings are equal up to separator runs iff their images
under `normSep` agree; this is the precise sense in which a
separator-flexible match reproduces its variant. -/
def normSepF : Nat → List Char → List Char
  | 0, _ => []
  | fuel + 1, l =>
    match l with
    | [] => []
    | c :: rest =>
      if isSepClass c then ' ' :: normSepF fuel (rest.dropWhile isSepClass)
      else c :: normSepF fuel rest

def normSep (l : List Char) : List Char := normSepF l.length l

/-! ## Concrete inputs used by witnesses and counterexamples -/

/-- A text triggering every scoring signal: all favorable-word, structure,
evidence, procedure, context and terminology conditions hold and no
unfavorable word occurs, so the raw score is `0.25 + 0.2 + 0.2 + 0.165 +
0.1 + 0.1 = 1.015`, clamped to `1`. -/
def megaTexto : String :=
  "procedente argumentos conclusiones hechos solicitud informe médico lesiones grave accidente laboral secuelas reclamación administrativa previa trámite cumplido plazo dentro notificación durante jornada lugar de trabajo medidas de seguridad empresa responsabilidad actor demandado procedimiento instancia resolución recurso fundamento considerando"

/-- Scenario A of the spec: favorable vocabulary only, no other signal. -/
def textoA : String := "estimamos procedente la incapacidad permanente parcial"

/-- Scenario B of the spec: both cross-reference phrases, nothing else. -/
def textoB : String :=
  "rotura completa del manguito rotador y lesiones permanentes no incapacitantes"

/-- Scenario B text prefixed with three sentencia indicators, so the
document-type heuristic classifies it as a sentencia. -/
def textoBSentencia : String :=
  "sentencia fallamos magistrado rotura completa del manguito rotador y lesiones permanentes no incapacitantes"

/-- A text matching no pattern of any branch of the detector. -/
def textoVacio : String := "sin hallazgos"

/-- A processed favorable document under the given file name. -/
def docFav (n : String) : String × ResultadoArchivo := (n, ⟨true, some ⟨true, 1/2⟩⟩)

/-- A processed unfavorable document under the given file name. -/
def docDes (n : String) : String × ResultadoArchivo := (n, ⟨true, some ⟨false, 1/2⟩⟩)

/-- Nine processed documents, eight favorable and one unfavorable, none from
a supreme or appellate source: the weighted ratio is `8/9 ≈ 0.889`. -/
def corpusOchoNueve : List (String × ResultadoArchivo) :=
  [docFav "a1", docFav "a2", docFav "a3", docFav "a4", docFav "a5",
   docFav "a6", docFav "a7", docFav "a8", docDes "a9"]

/-- A double space between words: the separator-flexible pattern still
matches, with a match length of 31 against a 30-character variant. -/
def textoDobleEspacio : String := "incapacidad  permanente parcial"

/-! ## Lemmas and claim theorems -/

theorem hasPref_take {l₁ l₂ : List Char} (h : hasPref l₁ l₂ = true) :
    l₂.take l₁.length = l₁ := by
  induction l₁ generalizing l₂ with
  | nil => simp
  | cons a as ih =>
    cases l₂ with
    | nil => simp [hasPref] at h
    | cons b bs =>
      simp only [hasPref, Bool.and_eq_true, beq_iff_eq] at h
      simp [List.take, h.1.symm, ih h.2]

theorem qmax_eq (a b : ℚ) : qmax a b = max a b := (max_def a b).symm

theorem qmin_eq (a b : ℚ) : qmin a b = min a b := (min_def a b).symm

theorem qabs_eq (a : ℚ) : qabs a = |a| := by
  rcases lt_or_ge a 0 with h | h
  · simp [qabs, h, abs_of_neg h]
  · simp [qabs, not_lt.2 h, abs_of_nonneg h]

/-! Rational arithmetic written through `mkRat`, so that concrete values
evaluate by kernel reduction (the library's `Rat.add` etc. are irreducible).
The bridge lemmas identify these with the field operations of `ℚ`; theorems
are stated with the ordinary operations and witnesses rewrite across the
bridge before `decide`. -/

def qadd (a b : ℚ) : ℚ := mkRat (a.num * b.den + b.num * a.den) (a.den * b.den)

def qmul (a b : ℚ) : ℚ := mkRat (a.num * b.num) (a.den * b.den)

def qsub (a b : ℚ) : ℚ := mkRat (a.num * b.den - b.num * a.den) (a.den * b.den)

def qdiv (a b : ℚ) : ℚ := mkRat (a.num * b.den * b.num.sign) (a.den * b.num.natAbs)

theorem qadd_eq (a b : ℚ) : qadd a b = a + b := by
  have ha : ((a.den : ℚ)) ≠ 0 := by exact_mod_cast a.den_nz
  have hb : ((b.den : ℚ)) ≠ 0 := by exact_mod_cast b.den_nz
  rw [qadd, Rat.mkRat_eq_div]
  conv_rhs => rw [← Rat.num_div_den a, ← Rat.num_div_den b]
  rw [div_add_div _ _ ha hb]
  push_cast
  ring_nf

theorem qmul_eq (a b : ℚ) : qmul a b = a * b := by
  have ha : ((a.den : ℚ)) ≠ 0 := by exact_mod_cast a.den_nz
  have hb : ((b.den : ℚ)) ≠ 0 := by exact_mod_cast b.den_nz
  rw [qmul, Rat.mkRat_eq_div]
  conv_rhs => rw [← Rat.num_div_den a, ← Rat.num_div_den b]
  rw [div_mul_div_comm]
  push_cast
  ring_nf

theorem qsub_eq (a b : ℚ) : qsub a b = a - b := by
  have ha : ((a.den : ℚ)) ≠ 0 := by exact_mod_cast a.den_nz
  have hb : ((b.den : ℚ)) ≠ 0 := by exact_mod_cast b.den_nz
  rw [qsub, Rat.mkRat_eq_div]
  conv_rhs => rw [← Rat.num_div_den a, ← Rat.num_div_den b]
  rw [div_sub_div _ _ ha hb]
  push_cast
  ring_nf

theorem qdiv_eq (a b : ℚ) : qdiv a b = a / b := by
  have ha : ((a.den : ℚ)) ≠ 0 := by exact_mod_cast a.den_nz
  rcases lt_trichotomy b.num 0 with hb | hb | hb
  · have hnb : ((b.num.natAbs : ℕ) : ℤ) = -b.num := by omega
    have hq : ((b.num.natAbs : ℕ) : ℚ) = -((b.num : ℤ) : ℚ) := by
      rw [← @Int.cast_natCast ℚ _ b.num.natAbs, hnb, Int.cast_neg]
    have hbd : ((b.den : ℚ)) ≠ 0 := by exact_mod_cast b.den_nz
    have hbn : ((b.num : ℚ)) ≠ 0 := by exact_mod_cast hb.ne
    rw [qdiv, Rat.mkRat_eq_div, Int.sign_eq_neg_one_of_neg hb]
    conv_rhs => rw [← Rat.num_div_den a, ← Rat.num_div_den b]
    push_cast
    rw [hq]
    field_simp
  · have hb0 : b = 0 := Rat.num_eq_zero.mp hb
    simp [qdiv, hb, hb0, Int.sign_zero]
  · have hnb : ((b.num.natAbs : ℕ) : ℤ) = b.num := by omega
    have hq : ((b.num.natAbs : ℕ) : ℚ) = ((b.num : ℤ) : ℚ) := by
      rw [← @Int.cast_natCast ℚ _ b.num.natAbs, hnb]
    have hbd : ((b.den : ℚ)) ≠ 0 := by exact_mod_cast b.den_nz
    have hbn : ((b.num : ℚ)) ≠ 0 := by exact_mod_cast hb.ne.symm
    rw [qdiv, Rat.mkRat_eq_div, Int.sign_eq_one_of_pos hb]
    conv_rhs => rw [← Rat.num_div_den a, ← Rat.num_div_den b]
    push_cast
    rw [hq]
    field_simp

/-! ### Bounds of the scorer (C1) -/

theorem puntuacionGlobal_mem (texto : String) :
    -1 ≤ puntuacionGlobal texto ∧ puntuacionGlobal texto ≤ 1 := by
  unfold puntuacionGlobal
  rw [qmax_eq, qmin_eq]
  exact ⟨le_max_left _ _, max_le (by norm_num) (min_le_left _ _)⟩

/-- C1: the claim states `confianza ∈ [0.3, 0.95]` for every text.  The source
floors confidence at 0.3 but never caps it at 0.95 (the only 0.95 cap is in
`_calcular_probabilidad_exito`, on the derived success probability):
`megaTexto` reaches confidence 1. -/
theorem c1_counterexample :
    confianza megaTexto = 1 ∧ ¬(confianza megaTexto ≤ 19/20) := by
  have h : confianza megaTexto = 1 := by
    simp only [confianza, puntuacionGlobal, puntuacionRaw, puntuacionFromSignals,
      estructuraScore, evidenciaScore, procedimientoScore, contextoScore, terminologiaScore,
      favorablesCount, desfavorablesCount,
      ← qadd_eq, ← qmul_eq, ← qdiv_eq, ← qsub_eq]
    decide
  refine ⟨h, ?_⟩
  rw [h]
  norm_num

/-- C1 (amended): for every input text the confidence returned by the
rule-based keyword scorer lies in `[0.3, 1]`; the floor 0.3 holds but the
only upper bound is the clamp of the score to `[-1, 1]`, so confidence up to
1 is reachable and no 0.95 cap is applied. -/
theorem c1_confianza_bounds (texto : String) :
    3/10 ≤ confianza texto ∧ confianza texto ≤ 1 := by
  obtain ⟨hlo, hhi⟩ := puntuacionGlobal_mem texto
  unfold confianza
  rw [qmax_eq, qabs_eq]
  constructor
  · exact le_max_left _ _
  · exact max_le (by norm_num) (abs_le.2 ⟨by linarith, hhi⟩)

/-! ### Scenario A (C7) -/

/-- C7: the claim states that a text with favorable vocabulary only (no
unfavorable vocabulary, no other scoring signal) gets confidence strictly
greater than 0.3.  On Scenario A's own text the score is `1 * 0.25 = 0.25`,
so the returned confidence is the floor `0.3` exactly — not `> 0.3`. -/
theorem c7_counterexample :
    0 < favorablesCount (lower textoA.data) ∧
    desfavorablesCount (lower textoA.data) = 0 ∧
    estructuraScore (lower textoA.data) = 0 ∧
    evidenciaScore (lower textoA.data) = 0 ∧
    procedimientoScore (lower textoA.data) = 0 ∧
    contextoScore (lower textoA.data) = 0 ∧
    terminologiaScore (lower textoA.data) = 0 ∧
    esFavorable textoA = true ∧
    confianza textoA = 3/10 ∧ ¬(3/10 < confianza textoA) := by
  have hsc : estructuraScore (lower textoA.data) = 0 ∧
      evidenciaScore (lower textoA.data) = 0 ∧
      procedimientoScore (lower textoA.data) = 0 ∧
      contextoScore (lower textoA.data) = 0 ∧
      terminologiaScore (lower textoA.data) = 0 := by
    simp only [estructuraScore, evidenciaScore, procedimientoScore, contextoScore,
      terminologiaScore, ← qadd_eq, ← qmul_eq, ← qdiv_eq, ← qsub_eq]
    refine ⟨?_, ?_, ?_, ?_, ?_⟩ <;> decide
  have hc : confianza textoA = 3/10 := by
    simp only [confianza, puntuacionGlobal, puntuacionRaw, puntuacionFromSignals,
      estructuraScore, evidenciaScore, procedimientoScore, contextoScore, terminologiaScore,
      favorablesCount, desfavorablesCount,
      ← qadd_eq, ← qmul_eq, ← qdiv_eq, ← qsub_eq]
    decide
  have hfav : esFavorable textoA = true := by
    simp only [esFavorable, puntuacionGlobal, puntuacionRaw, puntuacionFromSignals,
      estructuraScore, evidenciaScore, procedimientoScore, contextoScore, terminologiaScore,
      favorablesCount, desfavorablesCount,
      ← qadd_eq, ← qmul_eq, ← qdiv_eq, ← qsub_eq]
    decide
  exact ⟨by decide, by decide, hsc.1, hsc.2.1, hsc.2.2.1, hsc.2.2.2.1, hsc.2.2.2.2,
    hfav, hc, by rw [hc]; exact lt_irrefl _⟩

/-- C7 (amended): for every text with at least one favorable vocabulary term,
no unfavorable vocabulary and no other scoring signal, the scorer labels the
document favorable and returns confidence exactly 0.3 (the floor), i.e.
`≥ 0.3` but not `> 0.3`. -/
theorem c7_favorable_confianza_floor (texto : String)
    (hf : 0 < favorablesCount (lower texto.data))
    (hd : desfavorablesCount (lower texto.data) = 0)
    (he : estructuraScore (lower texto.data) = 0)
    (hev : evidenciaScore (lower texto.data) = 0)
    (hp : procedimientoScore (lower texto.data) = 0)
    (hc : contextoScore (lower texto.data) = 0)
    (ht : terminologiaScore (lower texto.data) = 0) :
    esFavorable texto = true ∧ confianza texto = 3/10 := by
  have hfq : ((favorablesCount (lower texto.data) : ℚ)) ≠ 0 :=
    (Nat.cast_pos.mpr hf).ne'
  have hraw : puntuacionRaw texto = 1/4 := by
    simp only [puntuacionRaw, puntuacionFromSignals]
    rw [hd, he, hev, hp, hc, ht]
    rw [if_pos (by omega)]
    push_cast
    rw [sub_zero, add_zero, div_self hfq]
    ring
  have hpg : puntuacionGlobal texto = 1/4 := by
    unfold puntuacionGlobal qmax qmin
    rw [hraw]
    norm_num
  constructor
  · unfold esFavorable
    rw [hpg]
    norm_num
  · unfold confianza qmax qabs
    rw [hpg]
    norm_num

theorem c7_witness :
    0 < favorablesCount (lower textoA.data) ∧
    esFavorable textoA = true ∧ confianza textoA = 3/10 := by
  have hsc : estructuraScore (lower textoA.data) = 0 ∧
      evidenciaScore (lower textoA.data) = 0 ∧
      procedimientoScore (lower textoA.data) = 0 ∧
      contextoScore (lower textoA.data) = 0 ∧
      terminologiaScore (lower textoA.data) = 0 := by
    simp only [estructuraScore, evidenciaScore, procedimientoScore, contextoScore,
      terminologiaScore, ← qadd_eq, ← qmul_eq, ← qdiv_eq, ← qsub_eq]
    refine ⟨?_, ?_, ?_, ?_, ?_⟩ <;> decide
  exact ⟨by decide,
    c7_favorable_confianza_floor textoA (by decide) (by decide)
      hsc.1 hsc.2.1 hsc.2.2.1 hsc.2.2.2.1 hsc.2.2.2.2⟩

/-! ### Monotonicity in the favorable-word count (C8) -/

/-- C8: adding further favorable-vocabulary matches while every other scoring
signal stays fixed never decreases the (clamped) total favorability score.
In the source, favorable occurrences enter only through the count
`favorables`; the keyword factor `(favorables - desfavorables) /
(favorables + desfavorables)` is nondecreasing in `favorables`, and the
clamp to `[-1, 1]` preserves monotonicity. -/
theorem c8_favorables_mono (fav fav' desf : Nat) (estr evid proc ctx term : ℚ)
    (h : fav ≤ fav') :
    max (-1) (min 1 (puntuacionFromSignals fav desf estr evid proc ctx term)) ≤
      max (-1) (min 1 (puntuacionFromSignals fav' desf estr evid proc ctx term)) := by
  have key : (if 0 < fav + desf then ((fav : ℚ) - (desf : ℚ)) / ((fav : ℚ) + (desf : ℚ)) * (1/4) else 0)
      ≤ (if 0 < fav' + desf then ((fav' : ℚ) - (desf : ℚ)) / ((fav' : ℚ) + (desf : ℚ)) * (1/4) else 0) := by
    rcases Nat.eq_zero_or_pos (fav + desf) with h0 | hpos
    · have hf0 : fav = 0 := by omega
      have hd0 : desf = 0 := by omega
      subst hf0
      subst hd0
      rw [if_neg (by omega)]
      rcases Nat.eq_zero_or_pos fav' with hf' | hf'
      · subst hf'
        rw [if_neg (by omega)]
      · rw [if_pos (by omega)]
        have : ((fav' : ℚ)) ≠ 0 := ne_of_gt (Nat.cast_pos.mpr hf')
        push_cast
        rw [sub_zero, add_zero, div_self this]
        norm_num
    · rw [if_pos hpos, if_pos (by omega)]
      have hdpos : (0 : ℚ) < (fav : ℚ) + (desf : ℚ) := by
        have : (0 : ℚ) < ((fav + desf : ℕ) : ℚ) := Nat.cast_pos.mpr hpos
        push_cast at this
        linarith
      have hdpos' : (0 : ℚ) < (fav' : ℚ) + (desf : ℚ) := by
        have h1 : (fav : ℚ) ≤ (fav' : ℚ) := Nat.cast_le.mpr h
        linarith
      apply mul_le_mul_of_nonneg_right _ (by norm_num)
      rw [div_le_div_iff₀ hdpos hdpos']
      have h1 : (fav : ℚ) ≤ (fav' : ℚ) := Nat.cast_le.mpr h
      have h2 : (0 : ℚ) ≤ (desf : ℚ) := Nat.cast_nonneg desf
      nlinarith
  have mono : puntuacionFromSignals fav desf estr evid proc ctx term ≤
      puntuacionFromSignals fav' desf estr evid proc ctx term := by
    unfold puntuacionFromSignals
    linarith
  exact max_le_max le_rfl (min_le_min le_rfl mono)

theorem c8_witness :
    max (-1) (min 1 (puntuacionFromSignals 1 1 0 0 0 0 0)) ≤
      max (-1) (min 1 (puntuacionFromSignals 2 1 0 0 0 0 0)) :=
  c8_favorables_mono 1 2 1 0 0 0 0 0 (by norm_num)


/-! ### No matches, no output and no exception (C9) -/

/-- C9: if no discrepancy pattern, evidence pattern, or contradiction pattern
matches — in whichever branch the document-type heuristic selects — the
detector returns a structured result with empty discrepancy,
favorable-evidence and internal-contradiction lists (the embedded function is
total: the source's `try/except` wrapper is never exercised for lack of
matches). -/
theorem c9_sin_coincidencias (texto : String)
    (h1 : buscarPatrones patronesLesionesGraves texto = [])
    (h2 : buscarPatrones patronesTerminologiaLpni texto = [])
    (h3 : buscarPatrones patronesLimitacionesFuncionales texto = [])
    (h4 : buscarPatrones patronesEvidenciaObjetiva texto = [])
    (h5 : patronesContradiccionesInternas.flatMap
        (fun p => searchPositions p (lower texto.data)) = [])
    (h6 : durPrimero texto = none)
    (h7 : inLower "informe" texto = false)
    (h8 : inLower "incapacidad permanente parcial" texto = false)
    (h9 : inLower "ipp" texto = false)
    (h10 : inLower "artículo" texto = false)
    (h11 : inLower "supraespinoso" texto = false)
    (h12 : inLower "hombro" texto = false)
    (h13 : inLower "desestimamos" texto = false) :
    (analizarDiscrepancias texto).discrepanciasDetectadas = [] ∧
    (analizarDiscrepancias texto).evidenciaFavorable = [] ∧
    (analizarDiscrepancias texto).contradiccionesInternas = [] := by
  simp only [analizarDiscrepancias]
  by_cases hs : detectarTipoDocumento texto = "sentencia"
  · rw [if_pos hs]
    refine ⟨?_, ?_, ?_⟩
    · simp [detectarDiscrepanciasSentencia, h7, h8, h9]
    · simp [analizarEvidenciaSentencia, h10, h11, h12]
    · simp [detectarContradiccionesSentencia, h13]
  · rw [if_neg hs]
    refine ⟨?_, ?_, ?_⟩
    · simp [detectarDiscrepanciasEspecificas, h1, h2, h3, h4]
    · simp [analizarEvidenciaFavorable, h1, h3, h6]
    · simp [detectarContradiccionesInternas, h5]

theorem c9_witness :
    buscarPatrones patronesLesionesGraves textoVacio = [] ∧
    buscarPatrones patronesTerminologiaLpni textoVacio = [] ∧
    buscarPatrones patronesLimitacionesFuncionales textoVacio = [] ∧
    buscarPatrones patronesEvidenciaObjetiva textoVacio = [] ∧
    patronesContradiccionesInternas.flatMap
      (fun p => searchPositions p (lower textoVacio.data)) = [] ∧
    durPrimero textoVacio = none ∧
    (analizarDiscrepancias textoVacio).discrepanciasDetectadas = [] ∧
    (analizarDiscrepancias textoVacio).evidenciaFavorable = [] ∧
    (analizarDiscrepancias textoVacio).contradiccionesInternas = [] := by
  have h := c9_sin_coincidencias textoVacio (by decide) (by decide) (by decide) (by decide)
    (by decide) (by decide) (by decide) (by decide) (by decide) (by decide) (by decide)
    (by decide) (by decide)
  exact ⟨by decide, by decide, by decide, by decide, by decide, by decide,
    h.1, h.2.1, h.2.2⟩

/-! ### The sentencia branch never emits cross-reference types (C10) -/

theorem mem_detectarDiscrepanciasSentencia {texto : String} {d : Discrepancia}
    (hd : d ∈ detectarDiscrepanciasSentencia texto) :
    d.tipo = "sentencia_referencia_informe" ∨ d.tipo = "conclusion_ipp" := by
  unfold detectarDiscrepanciasSentencia at hd
  rcases List.mem_append.1 hd with h | h
  · split at h
    · simp only [List.mem_singleton] at h
      subst h
      exact Or.inl rfl
    · simp at h
  · split at h
    · simp only [List.mem_singleton] at h
      subst h
      exact Or.inr rfl
    · simp at h

/-- C10: a text with at least three sentencia indicators and strictly more of
them than medical-report indicators is classified "sentencia", and the
detector then applies the sentencia rule set, which can only produce the
types `sentencia_referencia_informe` and `conclusion_ipp` — never the
cross-reference types `lesiones_graves_vs_lpni`, `limitaciones_vs_alta` or
`evidencia_vs_conclusion`, even when the structural-injury and LPNI patterns
both match the text. -/
theorem c10_sentencia_sin_tipos_cruzados (texto : String)
    (h3 : 3 ≤ contadorSentencia texto)
    (hm : contadorInforme texto < contadorSentencia texto) :
    detectarTipoDocumento texto = "sentencia" ∧
    ∀ d ∈ (analizarDiscrepancias texto).discrepanciasDetectadas,
      d.tipo ≠ "lesiones_graves_vs_lpni" ∧ d.tipo ≠ "limitaciones_vs_alta" ∧
        d.tipo ≠ "evidencia_vs_conclusion" := by
  have htipo : detectarTipoDocumento texto = "sentencia" := by
    unfold detectarTipoDocumento
    rw [if_pos ⟨hm, h3⟩]
  refine ⟨htipo, ?_⟩
  intro d hd
  have hdd : (analizarDiscrepancias texto).discrepanciasDetectadas =
      detectarDiscrepanciasSentencia texto := by
    simp only [analizarDiscrepancias]
    rw [if_pos htipo]
  rw [hdd] at hd
  rcases mem_detectarDiscrepanciasSentencia hd with h | h <;> rw [h] <;>
    exact ⟨by decide, by decide, by decide⟩

theorem c10_witness :
    3 ≤ contadorSentencia textoBSentencia ∧
    contadorInforme textoBSentencia < contadorSentencia textoBSentencia ∧
    detectarTipoDocumento textoBSentencia = "sentencia" ∧
    containsSub "rotura completa del manguito rotador".data (lower textoBSentencia.data) = true ∧
    containsSub "lesiones permanentes no incapacitantes".data (lower textoBSentencia.data) = true :=
  ⟨by decide, by decide,
   (c10_sentencia_sin_tipos_cruzados textoBSentencia (by decide) (by decide)).1,
   by decide, by decide⟩

/-! ### From substring presence to pattern matches (infrastructure for C4) -/

theorem hasPref_iff {w l : List Char} : hasPref w l = true ↔ ∃ t, l = w ++ t := by
  induction w generalizing l with
  | nil => simp [hasPref]
  | cons a as ih =>
    cases l with
    | nil => simp [hasPref]
    | cons b bs =>
      simp only [hasPref, Bool.and_eq_true, beq_iff_eq, ih, List.cons_append,
        List.cons.injEq]
      constructor
      · rintro ⟨rfl, t, rfl⟩
        exact ⟨t, rfl, rfl⟩
      · rintro ⟨t, rfl, rfl⟩
        exact ⟨rfl, t, rfl⟩

theorem containsSub_iff {w l : List Char} :
    containsSub w l = true ↔ ∃ s t, l = s ++ w ++ t := by
  induction l with
  | nil =>
    simp only [containsSub, hasPref_iff]
    constructor
    · rintro ⟨t, ht⟩
      exact ⟨[], t, by simpa using ht⟩
    · rintro ⟨s, t, ht⟩
      rcases List.append_eq_nil.1 ht.symm with ⟨h1, h2⟩
      rcases List.append_eq_nil.1 h1 with ⟨h3, h4⟩
      exact ⟨t, by simp [h2, h4]⟩
  | cons c rest ih =>
    simp only [containsSub, Bool.or_eq_true, hasPref_iff, ih]
    constructor
    · rintro (⟨t, ht⟩ | ⟨s, t, ht⟩)
      · exact ⟨[], t, by simpa using ht⟩
      · exact ⟨c :: s, t, by simp [ht]⟩
    · rintro ⟨s, t, ht⟩
      cases s with
      | nil =>
        left
        exact ⟨t, by simpa using ht⟩
      | cons x xs =>
        right
        rw [List.cons_append, List.cons_append, List.cons.injEq] at ht
        exact ⟨xs, t, ht.2⟩

theorem self_mem_manyRem (c : CC) (s : List Char) : s ∈ manyRem c s := by
  cases s <;> simp [manyRem]

theorem manyRem_append {c : CC} {s t s2 : List Char} (h : s2 ∈ manyRem c s) :
    s2 ++ t ∈ manyRem c (s ++ t) := by
  induction s with
  | nil =>
    simp only [manyRem, List.mem_singleton] at h
    subst h
    simpa using self_mem_manyRem c t
  | cons d rest ih =>
    simp only [manyRem, List.mem_cons] at h
    rcases h with rfl | h
    · simp [manyRem]
    · split at h
      · next hcd =>
        rw [List.cons_append]
        simp only [manyRem]
        rw [if_pos hcd]
        exact List.mem_cons_of_mem _ (ih h)
      · simp at h

theorem reRem_append {r : RE} {s t s2 : List Char} (h : s2 ∈ reRem r s) :
    s2 ++ t ∈ reRem r (s ++ t) := by
  induction r generalizing s s2 with
  | eps =>
    simp only [reRem, List.mem_singleton] at h
    subst h
    simp [reRem]
  | cc c =>
    cases s with
    | nil => simp [reRem] at h
    | cons d rest =>
      simp only [reRem] at h
      split at h
      · next hcd =>
        simp only [List.mem_singleton] at h
        subst h
        rw [List.cons_append]
        simp only [reRem]
        rw [if_pos hcd]
        exact List.mem_singleton.2 rfl
      · simp at h
  | seq a b iha ihb =>
    simp only [reRem, List.mem_flatMap] at h ⊢
    obtain ⟨s1, hs1, hs2⟩ := h
    exact ⟨s1 ++ t, iha hs1, ihb hs2⟩
  | alt a b iha ihb =>
    simp only [reRem, List.mem_append] at h ⊢
    rcases h with h | h
    · exact Or.inl (iha h)
    · exact Or.inr (ihb h)
  | many c =>
    simp only [reRem] at h ⊢
    exact manyRem_append h
  | many1 c =>
    cases s with
    | nil => simp [reRem] at h
    | cons d rest =>
      simp only [reRem] at h
      split at h
      · next hcd =>
        rw [List.cons_append]
        simp only [reRem]
        rw [if_pos hcd]
        exact manyRem_append h
      · simp at h

/-- If the concrete phrase `w` occurs in `l` and pattern `p` matches `w`
exactly, then the search over `l` reports a match. -/
theorem searchPositions_ne_nil {p : RE} {w l : List Char}
    (hw : containsSub w l = true) (hm : [] ∈ reRem p w) :
    searchPositions p l ≠ [] := by
  obtain ⟨s, t, rfl⟩ := containsSub_iff.1 hw
  have h1 : ([] : List Char) ++ t ∈ reRem p (w ++ t) := reRem_append hm
  simp only [List.nil_append] at h1
  have h2 : matchesFrom p ((s ++ w ++ t).drop s.length) = true := by
    rw [List.append_assoc, List.drop_left]
    unfold matchesFrom
    have : reRem p (w ++ t) ≠ [] := List.ne_nil_of_mem h1
    simpa [List.isEmpty_iff] using this
  intro hnil
  have hmem : s.length ∈ searchPositions p (s ++ w ++ t) := by
    unfold searchPositions
    rw [List.mem_filter]
    refine ⟨List.mem_range.2 ?_, h2⟩
    simp only [List.length_append]
    omega
  rw [hnil] at hmem
  exact absurd hmem (List.not_mem_nil _)

theorem buscarPatrones_ne_nil {pats : List RE} {p : RE} {texto : String}
    (hp : p ∈ pats) (h : searchPositions p (lower texto.data) ≠ []) :
    buscarPatrones pats texto ≠ [] := by
  unfold buscarPatrones
  intro hnil
  rw [List.flatMap_eq_nil_iff] at hnil
  exact h (hnil p hp)

/-! ### Scenario B (C4) -/

/-- C4: the claim asserts that ANY text containing both phrases (and matching
no other catalog pattern) yields exactly the one classification-mismatch
discrepancy.  But when the text additionally carries three sentencia
indicators, the detector switches to the sentencia rule set and returns NO
discrepancy at all: `textoBSentencia` contains both phrases, matches no other
catalog pattern (the whole structural-injury group matches only at position
30, the LPNI group only at 69), yet the result is the empty list. -/
theorem c4_counterexample :
    containsSub "rotura completa del manguito rotador".data (lower textoBSentencia.data) = true ∧
    containsSub "lesiones permanentes no incapacitantes".data (lower textoBSentencia.data) = true ∧
    buscarPatrones patronesLesionesGraves textoBSentencia = [30] ∧
    buscarPatrones patronesTerminologiaLpni textoBSentencia = [69] ∧
    buscarPatrones patronesLimitacionesFuncionales textoBSentencia = [] ∧
    buscarPatrones patronesEvidenciaObjetiva textoBSentencia = [] ∧
    patronesContradiccionesInternas.flatMap
      (fun p => searchPositions p (lower textoBSentencia.data)) = [] ∧
    (analizarDiscrepancias textoBSentencia).discrepanciasDetectadas = [] := by
  refine ⟨?_, ?_, ?_, ?_, ?_, ?_, ?_, ?_⟩ <;> decide

/-- C4 (amended): for any text containing both "rotura completa del manguito
rotador" and "lesiones permanentes no incapacitantes", matching no
functional-limitation and no objective-evidence pattern, and NOT classified
as a sentencia by the document-type heuristic, the detector returns exactly
one discrepancy, of type `lesiones_graves_vs_lpni` with severity `alta`. -/
theorem c4_discrepancia_unica (texto : String)
    (hns : detectarTipoDocumento texto ≠ "sentencia")
    (hlg : containsSub "rotura completa del manguito rotador".data (lower texto.data) = true)
    (hlpni : containsSub "lesiones permanentes no incapacitantes".data (lower texto.data) = true)
    (hlim : buscarPatrones patronesLimitacionesFuncionales texto = [])
    (hobj : buscarPatrones patronesEvidenciaObjetiva texto = []) :
    (analizarDiscrepancias texto).discrepanciasDetectadas =
      [⟨"lesiones_graves_vs_lpni", "alta"⟩] := by
  have hmem6 : cat [rstr "rotura", sp1, rstr "completa", sp1, rstr "del", sp1, rstr "manguito",
      sp1, rstr "rotador"] ∈ patronesLesionesGraves := by decide
  have hmemL : cat [rstr "lesione", optS, sp1, rstr "permanente", optS, sp1, rstr "no", sp1,
      rstr "incapacitante", optS] ∈ patronesTerminologiaLpni := by decide
  have h1 : buscarPatrones patronesLesionesGraves texto ≠ [] :=
    buscarPatrones_ne_nil hmem6 (searchPositions_ne_nil hlg (by decide))
  have h2 : buscarPatrones patronesTerminologiaLpni texto ≠ [] :=
    buscarPatrones_ne_nil hmemL (searchPositions_ne_nil hlpni (by decide))
  simp only [analizarDiscrepancias]
  rw [if_neg hns]
  show detectarDiscrepanciasEspecificas texto = _
  simp only [detectarDiscrepanciasEspecificas]
  rw [hlim, hobj]
  simp [List.isEmpty_eq_true, h1, h2]

theorem c4_witness :
    detectarTipoDocumento textoB ≠ "sentencia" ∧
    containsSub "rotura completa del manguito rotador".data (lower textoB.data) = true ∧
    containsSub "lesiones permanentes no incapacitantes".data (lower textoB.data) = true ∧
    buscarPatrones patronesLimitacionesFuncionales textoB = [] ∧
    buscarPatrones patronesEvidenciaObjetiva textoB = [] ∧
    (analizarDiscrepancias textoB).discrepanciasDetectadas =
      [⟨"lesiones_graves_vs_lpni", "alta"⟩] :=
  ⟨by decide, by decide, by decide, by decide, by decide,
   c4_discrepancia_unica textoB (by decide) (by decide) (by decide) (by decide) (by decide)⟩

/-! ### Aggregate probability band (C2) -/

theorem one_le_pesoInstancia (inst : String) : 1 ≤ pesoInstancia inst := by
  unfold pesoInstancia
  split_ifs <;> norm_num

theorem length_le_sum_pesos (l : List (String × Prediccion)) :
    (l.length : ℚ) ≤ (l.map pesoDeDoc).sum := by
  induction l with
  | nil => simp
  | cons a as ih =>
    simp only [List.map_cons, List.sum_cons, List.length_cons]
    push_cast
    have h1 := one_le_pesoInstancia (inferirInstanciaPorNombre a.1)
    have h2 : pesoDeDoc a = pesoInstancia (inferirInstanciaPorNombre a.1) := rfl
    linarith

/-- C2: the claim asserts the published probability always lies in
`[0.15, 0.85]` once the corpus has 3 or more documents.  The source only
snaps ratios strictly above 0.9 down to 0.85 (and below 0.1 up to 0.15); a
corpus of 8 favorable and 1 unfavorable unweighted documents publishes its
raw weighted ratio `8/9 ≈ 0.889`, outside the claimed band. -/
theorem c2_counterexample :
    (predecirResultados corpusOchoNueve).totalDocumentos = 9 ∧
    (predecirResultados corpusOchoNueve).probFavorable = 8/9 ∧
    ¬((predecirResultados corpusOchoNueve).probFavorable ≤ 17/20) := by
  have hlf : (favorablesDe corpusOchoNueve).map pesoDeDoc = [1, 1, 1, 1, 1, 1, 1, 1] := by
    decide
  have hld : (desfavorablesDe corpusOchoNueve).map pesoDeDoc = [1] := by decide
  have hfav : pesoFavDe corpusOchoNueve = 8 := by
    show ((favorablesDe corpusOchoNueve).map pesoDeDoc).sum = 8
    rw [hlf]
    norm_num
  have hdes : pesoDesDe corpusOchoNueve = 1 := by
    show ((desfavorablesDe corpusOchoNueve).map pesoDeDoc).sum = 1
    rw [hld]
    norm_num
  have htot : totalDocumentosDe corpusOchoNueve = 9 := by decide
  have h : (predecirResultados corpusOchoNueve).probFavorable = 8/9 := by
    show probFavorableDe (pesoFavDe corpusOchoNueve) (pesoDesDe corpusOchoNueve)
      (totalDocumentosDe corpusOchoNueve) = 8/9
    rw [hfav, hdes, htot]
    norm_num [probFavorableDe]
  refine ⟨by decide, h, ?_⟩
  rw [h]
  norm_num

/-- C2 (amended): with 3 or more processed documents the published
probability lies in `[0.1, 0.9]`: weighted ratios above 0.9 are replaced by
0.85 and below 0.1 by 0.15, but ratios inside `(0.85, 0.9]` and `[0.1, 0.15)`
are published unchanged, so the claim's band `[0.15, 0.85]` can be
exceeded. -/
theorem c2_banda_realismo (docs : List (String × ResultadoArchivo))
    (h3 : 3 ≤ (predecirResultados docs).totalDocumentos) :
    1/10 ≤ (predecirResultados docs).probFavorable ∧
      (predecirResultados docs).probFavorable ≤ 9/10 := by
  have htot : 3 ≤ totalDocumentosDe docs := h3
  have hfav : ((favorablesDe docs).length : ℚ) ≤ pesoFavDe docs := length_le_sum_pesos _
  have hdes : ((desfavorablesDe docs).length : ℚ) ≤ pesoDesDe docs := length_le_sum_pesos _
  have hfav0 : 0 ≤ pesoFavDe docs := by
    have h0 : (0 : ℚ) ≤ ((favorablesDe docs).length : ℚ) := Nat.cast_nonneg _
    linarith
  have hpos : 0 < pesoFavDe docs + pesoDesDe docs := by
    have hcast : (3 : ℚ) ≤ ((totalDocumentosDe docs : ℕ) : ℚ) := by exact_mod_cast htot
    have hsum : ((totalDocumentosDe docs : ℕ) : ℚ) =
        ((favorablesDe docs).length : ℚ) + ((desfavorablesDe docs).length : ℚ) := by
      unfold totalDocumentosDe
      push_cast
      ring
    linarith
  have hshow : (predecirResultados docs).probFavorable =
      probFavorableDe (pesoFavDe docs) (pesoDesDe docs) (totalDocumentosDe docs) := rfl
  rw [hshow]
  unfold probFavorableDe
  rw [if_neg (by omega), if_neg (by omega), if_pos hpos]
  have hb0 : 0 ≤ pesoFavDe docs / (pesoFavDe docs + pesoDesDe docs) := div_nonneg hfav0 hpos.le
  have hb1 : pesoFavDe docs / (pesoFavDe docs + pesoDesDe docs) ≤ 1 := by
    rw [div_le_one hpos]
    have hd0 : (0 : ℚ) ≤ ((desfavorablesDe docs).length : ℚ) := Nat.cast_nonneg _
    linarith
  split_ifs with hgt hlt
  · constructor <;> norm_num
  · constructor <;> norm_num
  · exact ⟨not_lt.1 hlt, not_lt.1 hgt⟩

theorem c2_witness :
    3 ≤ (predecirResultados corpusOchoNueve).totalDocumentos ∧
    1/10 ≤ (predecirResultados corpusOchoNueve).probFavorable ∧
      (predecirResultados corpusOchoNueve).probFavorable ≤ 9/10 :=
  ⟨by decide, c2_banda_realismo corpusOchoNueve (by decide)⟩

/-! ### Risk analysis (C3) -/

/-- C3: the claim's small-corpus rule ("overall value classified by 100/50
thresholds, capped at medium below 3 documents") disagrees with the source:
with 1 document and value 40 the source classifies "medio" (its small-corpus
rule is `> 30` ⇒ medio), while the claim's rule gives "bajo". -/
theorem c3_counterexample :
    (analizarRiesgoLegal [("inss", 40)] ["doc1"]).valor = 40 ∧
    (analizarRiesgoLegal [("inss", 40)] ["doc1"]).nivel = "medio" ∧
    nivelRiesgoClaim 40 1 = "bajo" ∧ ("medio" : String) ≠ "bajo" := by
  have hts : ((["doc1"] : List String).filter
      (fun a => inferirInstanciaPorNombre a = "ts")).length = 0 := by decide
  have htsj : ((["doc1"] : List String).filter
      (fun a => inferirInstanciaPorNombre a = "tsj")).length = 0 := by decide
  have hfi : factorInstancia ["doc1"] = 1 := by
    unfold factorInstancia
    rw [if_pos (by decide : 0 < (["doc1"] : List String).length), hts, htsj]
    norm_num
  have hva : riesgoValor [("inss", 40)] ["doc1"] = 40 := by
    unfold riesgoValor
    rw [hfi]
    rw [show sumaNivel [("inss", 40)] categoriasRiesgoAlto = 0 from by decide]
    rw [show sumaNivel [("inss", 40)] categoriasRiesgoMed = 0 from by decide]
    rw [show sumaNivel [("inss", 40)] categoriasRiesgoBajo = 40 from by decide]
    norm_num
  have hv : (analizarRiesgoLegal [("inss", 40)] ["doc1"]).valor = 40 := hva
  have hn : (analizarRiesgoLegal [("inss", 40)] ["doc1"]).nivel = "medio" := by
    show riesgoNivel [("inss", 40)] ["doc1"] = "medio"
    unfold riesgoNivel
    rw [hva]
    rw [if_pos (by decide : (["doc1"] : List String).length < 3)]
    rw [if_pos (by norm_num : (40 : ℚ) > 30)]
  have hc : nivelRiesgoClaim 40 1 = "bajo" := by
    unfold nivelRiesgoClaim
    rw [if_neg (by norm_num : ¬((40 : ℚ) > 100)), if_neg (by norm_num : ¬((40 : ℚ) > 50))]
    rw [if_pos (by norm_num : (1 : ℕ) < 3)]
    rw [if_neg (by decide : ¬(("bajo" : String) = "alto"))]
  exact ⟨hv, hn, hc, by decide⟩

/-- C3 (amended): the overall risk value equals the claim's formula — tier
occurrence sums weighted 3/2/1, scaled by `1 + 0.5*supremeRatio +
0.2*appellateRatio` — and is returned as a structured result (the src/src
copy never takes the error path; only the stale src/backend copy does).  The
classification is: with 3 or more documents, "alto" above 100 and "medio"
above 50; with fewer than 3 documents, "medio" above 30 and otherwise
"bajo" — never "alto", but not the claim's cap of the 100/50 rule. -/
theorem c3_riesgo_caracterizacion (ranking : List (String × Nat)) (archivos : List String) :
    (analizarRiesgoLegal ranking archivos).valor =
      ((sumaNivel ranking categoriasRiesgoAlto * 3 + sumaNivel ranking categoriasRiesgoMed * 2 +
        sumaNivel ranking categoriasRiesgoBajo : ℕ) : ℚ) * factorInstancia archivos ∧
    factorInstancia archivos =
      (if 0 < archivos.length then
         1 + (1/2) * (((archivos.filter
               (fun a => inferirInstanciaPorNombre a = "ts")).length : ℚ) / (archivos.length : ℚ))
           + (1/5) * (((archivos.filter
               (fun a => inferirInstanciaPorNombre a = "tsj")).length : ℚ) / (archivos.length : ℚ))
       else 1) ∧
    ((analizarRiesgoLegal ranking archivos).nivel = "alto" ↔
       3 ≤ archivos.length ∧ 100 < (analizarRiesgoLegal ranking archivos).valor) ∧
    ((analizarRiesgoLegal ranking archivos).nivel = "medio" ↔
       (archivos.length < 3 ∧ 30 < (analizarRiesgoLegal ranking archivos).valor) ∨
         (3 ≤ archivos.length ∧ 50 < (analizarRiesgoLegal ranking archivos).valor ∧
           (analizarRiesgoLegal ranking archivos).valor ≤ 100)) ∧
    ((analizarRiesgoLegal ranking archivos).nivel = "bajo" ↔
       (archivos.length < 3 ∧ (analizarRiesgoLegal ranking archivos).valor ≤ 30) ∨
         (3 ≤ archivos.length ∧ (analizarRiesgoLegal ranking archivos).valor ≤ 50)) := by
  have hval : (analizarRiesgoLegal ranking archivos).valor = riesgoValor ranking archivos := rfl
  have hniv : (analizarRiesgoLegal ranking archivos).nivel = riesgoNivel ranking archivos := rfl
  refine ⟨rfl, ?_, ?_, ?_, ?_⟩
  · rfl
  · rw [hniv, hval]
    unfold riesgoNivel
    rcases Nat.lt_or_ge archivos.length 3 with hlen | hlen
    · rw [if_pos hlen]
      split_ifs with h30
      · exact ⟨fun hx => absurd hx (by decide), fun hx => by omega⟩
      · exact ⟨fun hx => absurd hx (by decide), fun hx => by omega⟩
    · rw [if_neg (by omega)]
      split_ifs with h100 h50
      · exact ⟨fun _ => ⟨hlen, h100⟩, fun _ => rfl⟩
      · exact ⟨fun hx => absurd hx (by decide), fun hx => absurd hx.2 h100⟩
      · exact ⟨fun hx => absurd hx (by decide), fun hx => absurd hx.2 h100⟩
  · rw [hniv, hval]
    unfold riesgoNivel
    rcases Nat.lt_or_ge archivos.length 3 with hlen | hlen
    · rw [if_pos hlen]
      split_ifs with h30
      · exact ⟨fun _ => Or.inl ⟨hlen, h30⟩, fun _ => rfl⟩
      · refine ⟨fun hx => absurd hx (by decide), ?_⟩
        rintro (⟨_, hv⟩ | ⟨hge, _⟩)
        · exact absurd hv h30
        · omega
    · rw [if_neg (by omega)]
      split_ifs with h100 h50
      · refine ⟨fun hx => absurd hx (by decide), ?_⟩
        rintro (⟨hlt, _⟩ | ⟨_, _, hle⟩)
        · omega
        · exact absurd h100 (not_lt.2 hle)
      · exact ⟨fun _ => Or.inr ⟨hlen, h50, not_lt.1 h100⟩, fun _ => rfl⟩
      · refine ⟨fun hx => absurd hx (by decide), ?_⟩
        rintro (⟨hlt, _⟩ | ⟨_, h50x, _⟩)
        · omega
        · exact absurd h50x h50
  · rw [hniv, hval]
    unfold riesgoNivel
    rcases Nat.lt_or_ge archivos.length 3 with hlen | hlen
    · rw [if_pos hlen]
      split_ifs with h30
      · refine ⟨fun hx => absurd hx (by decide), ?_⟩
        rintro (⟨_, hle⟩ | ⟨hge, _⟩)
        · exact absurd h30 (not_lt.2 hle)
        · omega
      · exact ⟨fun _ => Or.inl ⟨hlen, not_lt.1 h30⟩, fun _ => rfl⟩
    · rw [if_neg (by omega)]
      split_ifs with h100 h50
      · refine ⟨fun hx => absurd hx (by decide), ?_⟩
        rintro (⟨hlt, _⟩ | ⟨_, hle⟩)
        · omega
        · exact absurd h100 (not_lt.2 (le_trans hle (by norm_num)))
      · refine ⟨fun hx => absurd hx (by decide), ?_⟩
        rintro (⟨hlt, _⟩ | ⟨_, hle⟩)
        · omega
        · exact absurd h50 (not_lt.2 hle)
      · exact ⟨fun _ => Or.inr ⟨hlen, not_lt.1 h50⟩, fun _ => rfl⟩

/-! ### Catalog update operations (C6) -/

/-- C6: the claim asserts the update operations de-duplicate category names
case-insensitively, so the stored catalog can never hold two names equal
ignoring case.  The duplicate checks (`nombre in datos`, `new_name in
datos`) are exact string comparisons: starting from a catalog with
"lesiones", creating "Lesiones" succeeds, leaving two categories whose names
differ only in case. -/
theorem c6_counterexample :
    crearCategoria [] "lesiones" [] = .ok [("lesiones", [])] ∧
    crearCategoria [("lesiones", [])] "Lesiones" [] =
      .ok [("lesiones", []), ("Lesiones", [])] ∧
    lower "lesiones".data = lower "Lesiones".data ∧ ("lesiones" : String) ≠ "Lesiones" :=
  ⟨by rfl, by rfl, by decide, by decide⟩

/-- C6 (amended): `crear_categoria` and `renombrar_categoria` validate that
the stripped names are non-empty and reject duplicates under EXACT equality
(not case-insensitively — see the counterexample; only the phrase-level
operations de-duplicate case-insensitively).  Hence any successful update
preserves pairwise-distinct category names, but names equal ignoring case
can coexist. -/
theorem c6_operaciones_preservan_nodup (datos : List (String × List String))
    (hnd : (datos.map Prod.fst).Nodup) :
    (∀ nombre frases datos2, crearCategoria datos nombre frases = .ok datos2 →
        (strip nombre).data ≠ [] ∧ (datos2.map Prod.fst).Nodup) ∧
    (∀ o n datos2, renombrarCategoria datos o n = .ok datos2 →
        (strip o).data ≠ [] ∧ (strip n).data ≠ [] ∧ (datos2.map Prod.fst).Nodup) := by
  constructor
  · intro nombre frases datos2 hok
    unfold crearCategoria at hok
    split_ifs at hok with h1 h2
    have hne : (strip nombre).data ≠ [] := fun hx => h1 (List.isEmpty_iff.2 hx)
    have hmem : strip nombre ∉ datos.map Prod.fst := fun hx => h2 (List.elem_iff.2 hx)
    injection hok with hok2
    subst hok2
    refine ⟨hne, ?_⟩
    rw [List.map_append, List.nodup_append]
    exact ⟨hnd, List.nodup_singleton _, by simpa [List.disjoint_singleton] using hmem⟩
  · intro o n datos2 hok
    unfold renombrarCategoria at hok
    split_ifs at hok with h1 h2 h3 h4
    · -- n = o : the catalog is returned unchanged
      have hoe1 : (strip o).data ≠ [] := by
        rw [Bool.or_eq_true, not_or] at h1
        exact fun hx => h1.1 (List.isEmpty_iff.2 hx)
      have hoe2 : (strip n).data ≠ [] := by
        rw [Bool.or_eq_true, not_or] at h1
        exact fun hx => h1.2 (List.isEmpty_iff.2 hx)
      injection hok with hok2
      subst hok2
      exact ⟨hoe1, hoe2, hnd⟩
    · -- the rename branch: drop the old key, append the new one
      have hoe1 : (strip o).data ≠ [] := by
        rw [Bool.or_eq_true, not_or] at h1
        exact fun hx => h1.1 (List.isEmpty_iff.2 hx)
      have hoe2 : (strip n).data ≠ [] := by
        rw [Bool.or_eq_true, not_or] at h1
        exact fun hx => h1.2 (List.isEmpty_iff.2 hx)
      have hnmem : strip n ∉ datos.map Prod.fst := by
        intro hx
        refine h3 ?_
        rw [Bool.and_eq_true]
        exact ⟨List.elem_iff.2 hx, by simpa using h4⟩
      cases hlu : datos.lookup (strip o) with
      | none =>
        rw [hlu] at hok
        exact Except.noConfusion hok
      | some fr =>
        rw [hlu] at hok
        injection hok with hok2
        subst hok2
        refine ⟨hoe1, hoe2, ?_⟩
        rw [List.map_append, List.nodup_append]
        refine ⟨?_, List.nodup_singleton _, ?_⟩
        · exact List.Nodup.sublist (List.Sublist.map Prod.fst (List.filter_sublist datos)) hnd
        · rw [List.map_singleton, List.disjoint_singleton]
          exact fun hx =>
            hnmem ((List.Sublist.map Prod.fst (List.filter_sublist datos)).subset hx)

theorem c6_witness :
    (([("lesiones", [])] : List (String × List String)).map Prod.fst).Nodup ∧
    (strip "Nueva").data ≠ [] ∧
    (([("lesiones", []), ("Nueva", [])] : List (String × List String)).map Prod.fst).Nodup :=
  ⟨by decide,
   ((c6_operaciones_preservan_nodup [("lesiones", [])] (by decide)).1 "Nueva" []
      [("lesiones", []), ("Nueva", [])] (by rfl)).1,
   ((c6_operaciones_preservan_nodup [("lesiones", [])] (by decide)).1 "Nueva" []
      [("lesiones", []), ("Nueva", [])] (by rfl)).2⟩

/-! ### Extractor invariants (C5) -/

theorem scanAuxF_mem {pat txt : List Char} :
    ∀ (fuel i : Nat) {p : Nat}, p ∈ scanAuxF pat txt fuel i →
      p < txt.length ∧ matchAtCI pat txt p = true := by
  intro fuel
  induction fuel with
  | zero =>
    intro i p hp
    simp [scanAuxF] at hp
  | succ f ih =>
    intro i p hp
    simp only [scanAuxF] at hp
    split at hp
    · next h =>
      split at hp
      · next hm =>
        rcases List.mem_cons.1 hp with rfl | hp2
        · exact ⟨h, hm⟩
        · exact ih _ hp2
      · exact ih _ hp
    · simp at hp

theorem scanAux_mem {pat txt : List Char} {i p : Nat} (hp : p ∈ scanAux pat txt i) :
    p < txt.length ∧ matchAtCI pat txt p = true :=
  scanAuxF_mem _ _ hp

theorem matchAtCI_take {pat txt : List Char} {p : Nat} (h : matchAtCI pat txt p = true) :
    lower ((txt.drop p).take pat.length) = lower pat := by
  unfold matchAtCI at h
  have h2 := hasPref_take h
  have hlen : (lower pat).length = pat.length := by simp [lower]
  calc lower ((txt.drop p).take pat.length)
      = (lower (txt.drop p)).take pat.length := by simp [lower, List.map_take]
    _ = (lower (txt.drop p)).take (lower pat).length := by rw [hlen]
    _ = lower pat := h2

theorem scanFlexAuxF_mem {pat txt : List Char} :
    ∀ (fuel i : Nat) {pl : Nat × Nat}, pl ∈ scanFlexAuxF pat txt fuel i →
      pl.1 < txt.length ∧ flexLen pat (txt.drop pl.1) = some pl.2 := by
  intro fuel
  induction fuel with
  | zero =>
    intro i pl hp
    simp [scanFlexAuxF] at hp
  | succ f ih =>
    intro i pl hp
    simp only [scanFlexAuxF] at hp
    split at hp
    · next h =>
      split at hp
      · next len hm =>
        rcases List.mem_cons.1 hp with rfl | hp2
        · exact ⟨h, hm⟩
        · exact ih _ hp2
      · exact ih _ hp
    · simp at hp

theorem scanFlexAux_mem {pat txt : List Char} {i : Nat} {pl : Nat × Nat}
    (hp : pl ∈ scanFlexAux pat txt i) :
    pl.1 < txt.length ∧ flexLen pat (txt.drop pl.1) = some pl.2 :=
  scanFlexAuxF_mem _ _ hp

theorem lowerChar_of_sep {c : Char} (h : isSepClass c = true) : lowerChar c = c := by
  have h' : c = ' ' ∨ c = '\t' ∨ c = '\n' ∨ c = '\r' ∨ c = '\x0b' ∨ c = '\x0c' ∨
      c = '_' ∨ c = '-' := by
    simpa [isSepClass, ccMatch, or_assoc] using h
  rcases h' with rfl | rfl | rfl | rfl | rfl | rfl | rfl | rfl <;> decide

theorem sep_of_space {c : Char} (h : ccMatch .space c = true) : isSepClass c = true := by
  simp [isSepClass, h]

theorem lower_eq_self_of_sep : ∀ {l : List Char}, (∀ c ∈ l, isSepClass c = true) →
    List.map lowerChar l = l
  | [], _ => rfl
  | c :: rest, h => by
    simp only [List.map_cons]
    rw [lowerChar_of_sep (h c (List.mem_cons_self c rest))]
    rw [lower_eq_self_of_sep (fun d hd => h d (List.mem_cons_of_mem c hd))]

theorem dropWhile_append_sep {run r : List Char} (h : ∀ c ∈ run, isSepClass c = true) :
    (run ++ r).dropWhile isSepClass = r.dropWhile isSepClass := by
  induction run with
  | nil => rfl
  | cons c rest ih =>
    rw [List.cons_append, List.dropWhile_cons, if_pos (h c (List.mem_cons_self c rest))]
    exact ih (fun d hd => h d (List.mem_cons_of_mem c hd))

theorem normSepF_congr : ∀ (f₁ f₂ : Nat) (l : List Char),
    l.length ≤ f₁ → l.length ≤ f₂ → normSepF f₁ l = normSepF f₂ l
  | 0, f₂, l, h₁, _ => by
    have hl : l = [] := List.eq_nil_of_length_eq_zero (Nat.le_zero.1 h₁)
    subst hl
    cases f₂ <;> rfl
  | f + 1, 0, l, _, h₂ => by
    have hl : l = [] := List.eq_nil_of_length_eq_zero (Nat.le_zero.1 h₂)
    subst hl
    rfl
  | f + 1, g + 1, l, h₁, h₂ => by
    cases l with
    | nil => rfl
    | cons c rest =>
      simp only [normSepF]
      have hlen : (rest.dropWhile isSepClass).length ≤ rest.length :=
        (List.dropWhile_sublist (l := rest) isSepClass).length_le
      simp only [List.length_cons] at h₁ h₂
      by_cases hsep : isSepClass c = true
      · rw [if_pos hsep, if_pos hsep]
        rw [normSepF_congr f g (rest.dropWhile isSepClass) (by omega) (by omega)]
      · rw [if_neg hsep, if_neg hsep]
        rw [normSepF_congr f g rest (by omega) (by omega)]

theorem normSep_cons (c : Char) (rest : List Char) :
    normSep (c :: rest) =
      if isSepClass c then ' ' :: normSep (rest.dropWhile isSepClass)
      else c :: normSep rest := by
  show normSepF (rest.length + 1) (c :: rest) = _
  simp only [normSepF]
  have hlen : (rest.dropWhile isSepClass).length ≤ rest.length :=
    (List.dropWhile_sublist (l := rest) isSepClass).length_le
  by_cases hsep : isSepClass c = true
  · rw [if_pos hsep, if_pos hsep]
    rw [normSepF_congr rest.length (rest.dropWhile isSepClass).length
      (rest.dropWhile isSepClass) (by omega) (by omega)]
    rfl
  · rw [if_neg hsep, if_neg hsep]
    rfl

theorem normSep_sep_run {run r : List Char} (hne : run ≠ [])
    (h : ∀ c ∈ run, isSepClass c = true) :
    normSep (run ++ r) = ' ' :: normSep (r.dropWhile isSepClass) := by
  cases run with
  | nil => exact absurd rfl hne
  | cons c rest =>
    rw [List.cons_append]
    rw [normSep_cons]
    rw [if_pos (h c (List.mem_cons_self c rest))]
    rw [dropWhile_append_sep (fun d hd => h d (List.mem_cons_of_mem c hd))]

theorem normSep_dropWhile (l : List Char) :
    normSep (l.dropWhile isSepClass) = (normSep l).dropWhile (fun c => c == ' ') := by
  induction l with
  | nil => rfl
  | cons c rest ih =>
    by_cases hsep : isSepClass c = true
    · rw [List.dropWhile_cons, if_pos hsep]
      rw [normSep_cons]
      rw [if_pos hsep]
      rw [List.dropWhile_cons]
      rw [if_pos (by decide : ((' ' : Char) == ' ') = true)]
      rw [ih]
      rw [List.dropWhile_idempotent]
    · have hc : (c == ' ') = false := by
        rcases hbeq : (c == ' ') with _ | _
        · rfl
        · exact absurd (by rw [beq_iff_eq.1 hbeq]; decide) hsep
      rw [List.dropWhile_cons, if_neg hsep]
      rw [normSep_cons]
      rw [if_neg hsep]
      rw [List.dropWhile_cons, hc]
      simp

theorem take_len_append {α : Type} (l₁ l₂ : List α) (m : Nat) :
    (l₁ ++ l₂).take (l₁.length + m) = l₁ ++ l₂.take m := by
  induction l₁ with
  | nil => simp
  | cons a as ih =>
    simp only [List.cons_append, List.length_cons]
    rw [show as.length + 1 + m = (as.length + m) + 1 by omega]
    rw [List.take_succ_cons, ih]

theorem flexLen_normSep : ∀ (pat s : List Char) (n : Nat), flexLen pat s = some n →
    normSep (lower (s.take n)) = normSep (lower pat)
  | [], s, n, h => by
    simp only [flexLen, Option.some.injEq] at h
    subst h
    simp [lower]
  | c :: prest, s, n, h => by
    simp only [flexLen] at h
    by_cases hc : c = ' '
    · rw [if_pos hc] at h
      by_cases hemp : (s.takeWhile (ccMatch CC.space)).isEmpty = true
      · rw [if_pos hemp] at h
        exact Option.noConfusion h
      · rw [if_neg hemp] at h
        rw [Option.map_eq_some'] at h
        obtain ⟨m, hm, hn⟩ := h
        subst hn
        set sp := s.takeWhile (ccMatch CC.space) with hspdef
        have hne : sp ≠ [] := by
          intro hx
          rw [hx] at hemp
          exact hemp rfl
        have hall : ∀ x ∈ sp, isSepClass x = true := by
          intro x hx
          rw [hspdef] at hx
          exact sep_of_space (List.mem_takeWhile_imp hx)
        have hpre : sp = s.take sp.length := by
          rw [hspdef]
          exact List.prefix_iff_eq_take.1 (List.takeWhile_prefix _)
        have hsplit : s = sp ++ s.drop sp.length := by
          conv_lhs => rw [← List.take_append_drop sp.length s]
          rw [← hpre]
        have htake : s.take (sp.length + m) = sp ++ (s.drop sp.length).take m := by
          conv_lhs => rw [hsplit]
          exact take_len_append sp (s.drop sp.length) m
        rw [htake]
        simp only [lower, List.map_append, List.map_cons]
        rw [lower_eq_self_of_sep hall]
        rw [normSep_sep_run hne hall]
        rw [hc]
        rw [show lowerChar ' ' = ' ' by decide]
        rw [normSep_cons]
        rw [if_pos (by decide : isSepClass ' ' = true)]
        congr 1
        have ih := flexLen_normSep prest (s.drop sp.length) m hm
        simp only [lower] at ih
        rw [normSep_dropWhile, normSep_dropWhile, ih]
    · by_cases hh : c = '-'
      · rw [if_neg hc, if_pos hh] at h
        by_cases hemp : (s.takeWhile isSepClass).isEmpty = true
        · rw [if_pos hemp] at h
          exact Option.noConfusion h
        · rw [if_neg hemp] at h
          rw [Option.map_eq_some'] at h
          obtain ⟨m, hm, hn⟩ := h
          subst hn
          set sp := s.takeWhile isSepClass with hspdef
          have hne : sp ≠ [] := by
            intro hx
            rw [hx] at hemp
            exact hemp rfl
          have hall : ∀ x ∈ sp, isSepClass x = true := by
            intro x hx
            rw [hspdef] at hx
            exact List.mem_takeWhile_imp hx
          have hpre : sp = s.take sp.length := by
            rw [hspdef]
            exact List.prefix_iff_eq_take.1 (List.takeWhile_prefix _)
          have hsplit : s = sp ++ s.drop sp.length := by
            conv_lhs => rw [← List.take_append_drop sp.length s]
            rw [← hpre]
          have htake : s.take (sp.length + m) = sp ++ (s.drop sp.length).take m := by
            conv_lhs => rw [hsplit]
            exact take_len_append sp (s.drop sp.length) m
          rw [htake]
          simp only [lower, List.map_append, List.map_cons]
          rw [lower_eq_self_of_sep hall]
          rw [normSep_sep_run hne hall]
          rw [hh]
          rw [show lowerChar '-' = '-' by decide]
          rw [normSep_cons]
          rw [if_pos (by decide : isSepClass '-' = true)]
          congr 1
          have ih := flexLen_normSep prest (s.drop sp.length) m hm
          simp only [lower] at ih
          rw [normSep_dropWhile, normSep_dropWhile, ih]
      · rw [if_neg hc, if_neg hh] at h
        cases s with
        | nil => exact Option.noConfusion h
        | cons d rest =>
          simp only at h
          by_cases hbeq : (lowerChar d == lowerChar c) = true
          · rw [if_pos hbeq] at h
            rw [Option.map_eq_some'] at h
            obtain ⟨m, hm, hn⟩ := h
            subst hn
            have hde : lowerChar d = lowerChar c := beq_iff_eq.1 hbeq
            rw [List.take_succ_cons]
            simp only [lower, List.map_cons]
            rw [hde]
            have ih := flexLen_normSep prest rest m hm
            simp only [lower] at ih
            by_cases hsep : isSepClass (lowerChar c) = true
            · rw [normSep_cons, normSep_cons]
              rw [if_pos hsep, if_pos hsep]
              congr 1
              rw [normSep_dropWhile, normSep_dropWhile, ih]
            · rw [normSep_cons, normSep_cons]
              rw [if_neg hsep, if_neg hsep, ih]
          · rw [if_neg hbeq] at h
            exact Option.noConfusion h

/-- C5: the claim asserts that the substring of the text at each occurrence's
position, with the match's length, equals the matched variant up to letter
case.  The flexible extractor `_contar_frases_clave` turns each space of the
variant into the regex `\s+`, so a match may span MORE characters than the
variant: on `"incapacidad  permanente parcial"` (double space) it reports the
variant `"incapacidad permanente parcial"` at position 0 with length 31,
and the 31-character substring differs from the 30-character variant even
after lowercasing. -/
theorem c5_counterexample :
    contarFrasesClave frasesDefault textoDobleEspacio =
      [("incapacidad_permanente_parcial", 3,
        [⟨"incapacidad permanente parcial", 0, 31, 1⟩,
         ⟨"permanente parcial", 13, 18, 1⟩,
         ⟨"incapacidad permanente", 0, 23, 1⟩])] ∧
    lower ((textoDobleEspacio.data.drop 0).take 31) ≠
      lower ("incapacidad permanente parcial").data :=
  ⟨by decide, by decide⟩

/-- C5 (amended): every occurrence reported by either phrase extractor has a
position strictly below the text length.  For the exact extractor
(`_analizar_frases_clave`, which escapes the variant) the substring of the
text at the occurrence's position with the variant's length equals the
variant up to letter case.  For the flexible extractor
(`_contar_frases_clave`, which widens separators to `\s+` / `[\s_-]+`) the
substring with the occurrence's recorded length equals the variant only up
to letter case AND separator-run normalisation. -/
theorem c5_extractores :
    (∀ (fc : List (String × List String)) (texto : String)
        (e : String × Nat × List Ocurrencia) (o : Ocurrencia),
        e ∈ analizarFrasesClave fc texto → o ∈ e.2.2 →
        o.posicion < texto.data.length ∧
          lower ((texto.data.drop o.posicion).take o.frase.data.length) =
            lower o.frase.data) ∧
    (∀ (fc : List (String × List String)) (texto : String)
        (e : String × Nat × List OcurrenciaF) (o : OcurrenciaF),
        e ∈ contarFrasesClave fc texto → o ∈ e.2.2 →
        o.posicion < texto.data.length ∧
          normSep (lower ((texto.data.drop o.posicion).take o.longitud)) =
            normSep (lower o.frase.data)) := by
  constructor
  · intro fc texto e o he ho
    simp only [analizarFrasesClave] at he
    split at he
    · simp at he
    · simp only [List.mem_filterMap] at he
      obtain ⟨cv, _, hsome⟩ := he
      split at hsome
      · rw [Option.some.injEq] at hsome
        subst hsome
        simp only [List.mem_flatMap] at ho
        obtain ⟨v, _, hov⟩ := ho
        simp only [ocurrenciasDeVariante, List.mem_map] at hov
        obtain ⟨p, hp, rfl⟩ := hov
        exact ⟨(scanAux_mem hp).1, matchAtCI_take (scanAux_mem hp).2⟩
      · exact Option.noConfusion hsome
  · intro fc texto e o he ho
    simp only [contarFrasesClave] at he
    split at he
    · simp at he
    · simp only [List.mem_filterMap] at he
      obtain ⟨cv, _, hsome⟩ := he
      split at hsome
      · rw [Option.some.injEq] at hsome
        subst hsome
        simp only [List.mem_flatMap] at ho
        obtain ⟨v, _, hov⟩ := ho
        simp only [ocurrenciasFlexDeVariante, List.mem_map] at hov
        obtain ⟨pl, hp, rfl⟩ := hov
        exact ⟨(scanFlexAux_mem hp).1, flexLen_normSep _ _ _ (scanFlexAux_mem hp).2⟩
      · exact Option.noConfusion hsome

/-- C5 witness: the amended theorem applied to the occurrence of
`"incapacidad permanente parcial"` at position 24 of `textoA` (exact
extractor) and to the length-31 occurrence at position 0 of
`textoDobleEspacio` (flexible extractor). -/
theorem c5_witness :
    ((24 : Nat) < textoA.data.length ∧
      lower ((textoA.data.drop 24).take
          ("incapacidad permanente parcial" : String).data.length) =
        lower ("incapacidad permanente parcial" : String).data) ∧
    ((0 : Nat) < textoDobleEspacio.data.length ∧
      normSep (lower ((textoDobleEspacio.data.drop 0).take 31)) =
        normSep (lower ("incapacidad permanente parcial" : String).data)) :=
  ⟨c5_extractores.1 frasesDefault textoA
      ("incapacidad_permanente_parcial", 3,
        [⟨"incapacidad permanente parcial", 24, 1⟩,
         ⟨"permanente parcial", 36, 1⟩,
         ⟨"incapacidad permanente", 24, 1⟩])
      ⟨"incapacidad permanente parcial", 24, 1⟩ (by decide) (by decide),
   c5_extractores.2 frasesDefault textoDobleEspacio
      ("incapacidad_permanente_parcial", 3,
        [⟨"incapacidad permanente parcial", 0, 31, 1⟩,
         ⟨"permanente parcial", 13, 18, 1⟩,
         ⟨"incapacidad permanente", 0, 23, 1⟩])
      ⟨"incapacidad permanente parcial", 0, 31, 1⟩ (by decide) (by decide)⟩

end Sentencias
